import Mathlib

/-! # go-template: authentication, authorization and ownership

A shallow embedding of the service, handler, middleware and configuration code
of the repository (packages `apperror`, `response`, `middleware`, `post`,
`user`, `validator`, `config`) together with theorems about it.

Conventions of the embedding

* Go `uint` values are natural numbers; no arithmetic is performed on them in
  the embedded code.
* Go `error` values are `GoError`; a nil error is `none` / `Except.ok`.
* A function returning `(*T, apperror.AppErrors)` returns `Except AppErrors T`.
* Repositories are interfaces: they are records of functions over an abstract
  store `σ`.  Service operations thread the store explicitly and return, next
  to their result, the final store and the list of repository methods they
  invoked, in order.
* A gin handler is a function of the continuation `next` (the rest of the
  handler chain, what `c.Next()` runs) and the context.  `none` is a Go
  panic.
* Libraries outside the repository are parameters: bcrypt is a record of its
  two functions, the Unicode case tables are a function on runes, and the
  result of binding a request body is an argument of the handler.
* Package `internal/auth` is not among the sources; the token service is an
  interface for its callers, and its behaviour is modelled from the
  specification where a theorem is about the service itself.
-/

set_option autoImplicit false

/-! ## Errors -/

/-- Go `error` values: the gorm sentinel `gorm.ErrRecordNotFound` and any
other error, carrying its message. -/
inductive GoError where
  | ErrRecordNotFound
  | other (msg : String)
  deriving DecidableEq, Repr

/-- The `Error()` method. -/
def GoError.Error : GoError → String
  | .ErrRecordNotFound => "record not found"
  | .other msg => msg

/-- Rendering of an `error` interface value by the verb `%v`. -/
def fmtErr : Option GoError → String
  | none => "<nil>"
  | some e => e.Error

namespace apperror

structure AppError where
  Field : String
  Message : String
  deriving DecidableEq, Repr

abbrev AppErrors := List AppError

def NewError (field message : String) : AppError :=
  { Field := field, Message := message }

def NewErrors (errors : List AppError) : AppErrors := errors

def EmailAlreadyExists : AppErrors :=
  NewErrors [NewError "email" "The email has already been taken"]

def InvalidCredentials : AppErrors :=
  NewErrors [NewError "credentials" "The provided credentials are invalid"]

def OldPasswordIncorrect : AppErrors :=
  NewErrors [NewError "old_password" "The old password is incorrect"]

def PostNotFound : AppErrors :=
  NewErrors [NewError "post" "The post could not be found"]

def UserNotFound : AppErrors :=
  NewErrors [NewError "user" "The user could not be found"]

def Unauthorized : AppErrors :=
  NewErrors [NewError "authorization" "You are not authorized to perform this action"]

def OwnershipRequired : AppErrors :=
  NewErrors [NewError "ownership" "You don\x27t have permission to modify this resource"]

def InvalidID : AppErrors :=
  NewErrors [NewError "id" "The provided ID is invalid"]

def DatabaseError (err : Option GoError) : AppErrors :=
  NewErrors [NewError "database" ("A database error occurred: " ++ fmtErr err)]

end apperror

open apperror (AppError AppErrors)

/-- What a service operation did: its result, the store it leaves and the
repository methods it invoked, in order. -/
structure Outcome (σ κ α : Type) where
  result : α
  store : σ
  calls : List κ

/-! ## Package user: model -/

namespace user

structure User where
  ID : Nat
  Name : String
  Email : String
  Password : String
  Role : String
  CreatedAt : Nat
  UpdatedAt : Nat
  deriving DecidableEq, Repr

structure UserResponse where
  ID : Nat
  Name : String
  Email : String
  Role : String
  CreatedAt : Nat
  UpdatedAt : Nat
  deriving DecidableEq, Repr

def User.ToResponse (u : User) : UserResponse :=
  { ID := u.ID, Name := u.Name, Email := u.Email, Role := u.Role,
    CreatedAt := u.CreatedAt, UpdatedAt := u.UpdatedAt }

end user

/-! ## Package post: model, repository interface and service -/

namespace post

structure Post where
  ID : Nat
  Title : String
  Content : String
  UserID : Nat
  User : user.User
  CreatedAt : Nat
  UpdatedAt : Nat
  deriving DecidableEq, Repr

structure CreatePostDTO where
  Title : String
  Content : String
  deriving DecidableEq, Repr

structure UpdatePostDTO where
  Title : String
  Content : String
  deriving DecidableEq, Repr

structure PostResponse where
  ID : Nat
  Title : String
  Content : String
  UserID : Nat
  User : user.UserResponse
  CreatedAt : Nat
  UpdatedAt : Nat
  deriving DecidableEq, Repr

def Post.ToResponse (p : Post) : PostResponse :=
  { ID := p.ID, Title := p.Title, Content := p.Content, UserID := p.UserID,
    User := p.User.ToResponse, CreatedAt := p.CreatedAt, UpdatedAt := p.UpdatedAt }

/-- The `Repository` interface over a store `σ`.  `Create` receives a pointer
and may fill in fields of the post (the primary key), so it returns the post
as the caller sees it afterwards. -/
structure Repository (σ : Type) where
  Create : σ → Post → σ × Post × Option GoError
  FindAll : σ → List Post × Option GoError
  FindByID : σ → Nat → Except GoError Post
  FindByUserID : σ → Nat → List Post × Option GoError
  Update : σ → Post → σ × Option GoError
  Delete : σ → Nat → σ × Option GoError

/-- One invocation of a `Repository` method, with its argument. -/
inductive Call where
  | Create (p : Post)
  | FindAll
  | FindByID (id : Nat)
  | FindByUserID (userID : Nat)
  | Update (p : Post)
  | Delete (id : Nat)
  deriving DecidableEq, Repr

/-- Whether the call is one of the mutating methods `Update`, `Delete`. -/
def Call.isMutation : Call → Bool
  | .Update _ => true
  | .Delete _ => true
  | _ => false

abbrev Result (σ α : Type) := Outcome σ Call (Except AppErrors α)

def CreatePost {σ : Type} (repo : Repository σ) (s : σ) (userID : Nat)
    (dto : CreatePostDTO) : Result σ PostResponse :=
  let post : Post :=
    { ID := 0, Title := dto.Title, Content := dto.Content, UserID := userID,
      User := { ID := 0, Name := "", Email := "", Password := "", Role := "",
                CreatedAt := 0, UpdatedAt := 0 },
      CreatedAt := 0, UpdatedAt := 0 }
  match repo.Create s post with
  | (s1, _, some err) =>
    { result := .error (apperror.DatabaseError (some err)), store := s1,
      calls := [.Create post] }
  | (s1, post1, none) =>
    match repo.FindByID s1 post1.ID with
    | .error err =>
      { result := .error (apperror.DatabaseError (some err)), store := s1,
        calls := [.Create post, .FindByID post1.ID] }
    | .ok createdPost =>
      { result := .ok createdPost.ToResponse, store := s1,
        calls := [.Create post, .FindByID post1.ID] }

def GetPostByID {σ : Type} (repo : Repository σ) (s : σ) (id : Nat) :
    Result σ PostResponse :=
  match repo.FindByID s id with
  | .error err =>
    if err = GoError.ErrRecordNotFound then
      { result := .error apperror.PostNotFound, store := s, calls := [.FindByID id] }
    else
      { result := .error (apperror.DatabaseError (some err)), store := s,
        calls := [.FindByID id] }
  | .ok post => { result := .ok post.ToResponse, store := s, calls := [.FindByID id] }

/-- The field-level overwrite of `UpdatePost`: a non-empty DTO field replaces
the field of the fetched post. -/
def applyUpdate (post : Post) (dto : UpdatePostDTO) : Post :=
  let post := if dto.Title ≠ "" then { post with Title := dto.Title } else post
  let post := if dto.Content ≠ "" then { post with Content := dto.Content } else post
  post

def UpdatePost {σ : Type} (repo : Repository σ) (s : σ) (id userID : Nat)
    (dto : UpdatePostDTO) : Result σ PostResponse :=
  match repo.FindByID s id with
  | .error err =>
    if err = GoError.ErrRecordNotFound then
      { result := .error apperror.PostNotFound, store := s, calls := [.FindByID id] }
    else
      { result := .error (apperror.DatabaseError (some err)), store := s,
        calls := [.FindByID id] }
  | .ok post =>
    if post.UserID ≠ userID then
      { result := .error apperror.OwnershipRequired, store := s, calls := [.FindByID id] }
    else
      let post := applyUpdate post dto
      match repo.Update s post with
      | (s1, some err) =>
        { result := .error (apperror.DatabaseError (some err)), store := s1,
          calls := [.FindByID id, .Update post] }
      | (s1, none) =>
        match repo.FindByID s1 id with
        | .error err =>
          { result := .error (apperror.DatabaseError (some err)), store := s1,
            calls := [.FindByID id, .Update post, .FindByID id] }
        | .ok updatedPost =>
          { result := .ok updatedPost.ToResponse, store := s1,
            calls := [.FindByID id, .Update post, .FindByID id] }

def DeletePost {σ : Type} (repo : Repository σ) (s : σ) (id userID : Nat) :
    Outcome σ Call (Option AppErrors) :=
  match repo.FindByID s id with
  | .error err =>
    if err = GoError.ErrRecordNotFound then
      { result := some apperror.PostNotFound, store := s, calls := [.FindByID id] }
    else
      { result := some (apperror.DatabaseError (some err)), store := s,
        calls := [.FindByID id] }
  | .ok post =>
    if post.UserID ≠ userID then
      { result := some apperror.OwnershipRequired, store := s, calls := [.FindByID id] }
    else
      match repo.Delete s id with
      | (s1, some err) =>
        { result := some (apperror.DatabaseError (some err)), store := s1,
          calls := [.FindByID id, .Delete id] }
      | (s1, none) =>
        { result := none, store := s1, calls := [.FindByID id, .Delete id] }

/-- An in-memory repository over a list of posts, used to run the service on
concrete stores: `Create` assigns the next free id, `FindByID` reports
`gorm.ErrRecordNotFound` for a missing id, `Update` saves by id. -/
def memRepository : Repository (List Post) where
  Create := fun s p =>
    let p1 := { p with ID := (s.map (·.ID)).foldl max 0 + 1 }
    (s ++ [p1], p1, none)
  FindAll := fun s => (s, none)
  FindByID := fun s id =>
    match s.find? (fun p => p.ID = id) with
    | some p => .ok p
    | none => .error GoError.ErrRecordNotFound
  FindByUserID := fun s userID => (s.filter (fun p => p.UserID = userID), none)
  Update := fun s p =>
    if s.any (fun q => q.ID = p.ID) then
      (s.map (fun q => if q.ID = p.ID then p else q), none)
    else (s ++ [p], none)
  Delete := fun s id => (s.filter (fun p => p.ID ≠ id), none)

/-- A sample author. -/
def sampleUser : user.User :=
  { ID := 5, Name := "John", Email := "john@x.com", Password := "$2a$10$hash",
    Role := "user", CreatedAt := 100, UpdatedAt := 100 }

/-- A sample post with id 1, owned by subject 5. -/
def samplePost : Post :=
  { ID := 1, Title := "Old title", Content := "Old content body", UserID := 5,
    User := sampleUser, CreatedAt := 200, UpdatedAt := 200 }

end post

/-! ## Package user: repository interface, password check and Login -/

namespace user

structure LoginDTO where
  Email : String
  Password : String
  deriving DecidableEq, Repr

structure LoginResponse where
  Token : String
  User : UserResponse
  deriving DecidableEq, Repr

/-- The two functions of `golang.org/x/crypto/bcrypt` the model calls.  The
library is not part of the repository, so it is a parameter; `salt` stands for
the random bytes `GenerateFromPassword` draws. -/
structure Bcrypt where
  GenerateFromPassword : (salt : Nat) → (password : String) → (cost : Nat) →
    Except GoError String
  CompareHashAndPassword : (hashedPassword : String) → (password : String) →
    Option GoError

def User.CheckPassword (bc : Bcrypt) (u : User) (password : String) : Bool :=
  match bc.CompareHashAndPassword u.Password password with
  | none => true
  | some _ => false

/-- The `Repository` interface of package user over a store `σ`.  Its
declaration (internal/user/repository.go) is not among the sources; the method
set and signatures are the ones `service.go` calls.  `Create` and `Update`
receive a pointer and may fill in fields of the user (primary key,
timestamps), which the service reads afterwards, so they return the user as
the caller sees it after the call. -/
structure Repository (σ : Type) where
  EmailExists : σ → String → Bool
  Create : σ → User → σ × User × Option GoError
  FindByEmail : σ → String → Except GoError User
  FindAll : σ → List User × Option GoError
  FindByID : σ → Nat → Except GoError User
  Update : σ → User → σ × User × Option GoError
  Delete : σ → Nat → σ × Option GoError

/-- One invocation of a user `Repository` method, with its argument. -/
inductive Call where
  | EmailExists (email : String)
  | Create (u : User)
  | FindByEmail (email : String)
  | FindAll
  | FindByID (id : Nat)
  | Update (u : User)
  | Delete (id : Nat)
  deriving DecidableEq, Repr

end user

/-! ## Package auth: the token service interface -/

namespace auth

/-- The claims `ValidateToken` returns, as far as the callers read them. -/
structure Claims where
  UserID : Nat
  Email : String
  Role : String
  deriving DecidableEq, Repr

/-- The `JWTService` interface.  Package auth is not among the sources; the
two methods and their signatures are the ones the callers use. -/
structure JWTService where
  GenerateToken : (userID : Nat) → (email : String) → (role : String) →
    Except GoError String
  ValidateToken : (token : String) → Except GoError Claims

end auth

namespace user

def Login {σ : Type} (repo : Repository σ) (jwtService : auth.JWTService) (bc : Bcrypt)
    (s : σ) (dto : LoginDTO) : Outcome σ Call (Except AppErrors LoginResponse) :=
  match repo.FindByEmail s dto.Email with
  | .error _ =>
    { result := .error apperror.InvalidCredentials, store := s,
      calls := [.FindByEmail dto.Email] }
  | .ok user =>
    if !user.CheckPassword bc dto.Password then
      { result := .error apperror.InvalidCredentials, store := s,
        calls := [.FindByEmail dto.Email] }
    else
      match jwtService.GenerateToken user.ID user.Email user.Role with
      | .error err =>
        { result := .error (apperror.DatabaseError (some err)), store := s,
          calls := [.FindByEmail dto.Email] }
      | .ok token =>
        { result := .ok { Token := token, User := user.ToResponse }, store := s,
          calls := [.FindByEmail dto.Email] }

/-- An in-memory user repository over a list of users, used to run the
service on concrete stores. -/
def memRepository : Repository (List User) where
  EmailExists := fun s email => s.any (fun u => u.Email = email)
  Create := fun s u =>
    let u1 := { u with ID := (s.map (·.ID)).foldl max 0 + 1 }
    (s ++ [u1], u1, none)
  FindByEmail := fun s email =>
    match s.find? (fun u => u.Email = email) with
    | some u => .ok u
    | none => .error GoError.ErrRecordNotFound
  FindAll := fun s => (s, none)
  FindByID := fun s id =>
    match s.find? (fun u => u.ID = id) with
    | some u => .ok u
    | none => .error GoError.ErrRecordNotFound
  Update := fun s u =>
    if s.any (fun q => q.ID = u.ID) then
      (s.map (fun q => if q.ID = u.ID then u else q), u, none)
    else (s ++ [u], u, none)
  Delete := fun s id => (s.filter (fun u => u.ID ≠ id), none)

/-- A toy stand-in for bcrypt, used to run the service on concrete inputs: the
hash of `p` under salt `n` is `"$" ++ toString n ++ "$" ++ p`, and a password
verifies against a hash exactly when the hash ends in `"$" ++ password`. -/
def toyBcrypt : Bcrypt where
  GenerateFromPassword := fun salt password _ =>
    .ok ("$" ++ toString salt ++ "$" ++ password)
  CompareHashAndPassword := fun hashedPassword password =>
    if ("$" ++ password).data.isSuffixOf hashedPassword.data then none
    else some (GoError.other "crypto/bcrypt: hashedPassword is not the hash of the given password")

/-- A toy token service, used to run the code on concrete inputs: the token
of a subject is `"tok-" ++ role`, and only `"tok-admin"` and `"tok-user"`
validate. -/
def toyJWT : auth.JWTService where
  GenerateToken := fun _ _ role => .ok ("tok-" ++ role)
  ValidateToken := fun token =>
    if token = "tok-admin" then .ok { UserID := 1, Email := "root@x.com", Role := "admin" }
    else if token = "tok-user" then .ok { UserID := 5, Email := "john@x.com", Role := "user" }
    else .error (GoError.other "token is malformed")

end user

/-! ## Package response and the gin context -/

namespace response

/-- What the `Data` field of a response can hold. -/
inductive Data where
  | user (u : user.UserResponse)
  | users (us : List user.UserResponse)
  | login (l : user.LoginResponse)
  | post (p : post.PostResponse)
  | posts (ps : List post.PostResponse)
  deriving DecidableEq, Repr

structure Response where
  Success : Bool
  Message : String
  Data : Option Data
  Error : Option AppErrors
  deriving DecidableEq, Repr

end response

namespace gin

/-- Values stored in the key-value bag of a context. -/
inductive Value where
  | uint (n : Nat)
  | str (s : String)
  deriving DecidableEq, Repr

/-- The part of `gin.Context` the middleware touches: request headers, the
key-value bag, the abort flag, and the responses written (status code and
body).  `validated` is a ghost field: the tokens handed to
`jwtService.ValidateToken` while handling this request, in order.  `writtenH`
holds the responses written with a `gin.H` body, a map from keys to strings
(only `common/middleware` writes such bodies). -/
structure Context where
  Header : List (String × String)
  Keys : List (String × Value)
  aborted : Bool
  written : List (Nat × response.Response)
  validated : List String
  writtenH : List (Nat × List (String × String))
  deriving DecidableEq, Repr

/-- Method `c.GetHeader(key)`: the header value, `""` when it is absent. -/
def Context.GetHeader (c : Context) (key : String) : String :=
  (c.Header.lookup key).getD ""

/-- Method `c.Set(key, value)`. -/
def Context.Set (c : Context) (key : String) (value : Value) : Context :=
  { c with Keys := (key, value) :: c.Keys.filter (fun kv => kv.1 ≠ key) }

/-- Method `c.Get(key)`: the value and whether it exists. -/
def Context.Get (c : Context) (key : String) : Option Value :=
  c.Keys.lookup key

/-- Method `c.Abort()`. -/
def Context.Abort (c : Context) : Context :=
  { c with aborted := true }

/-- Method `c.JSON(code, obj)` for a `response.Response` body. -/
def Context.JSON (c : Context) (code : Nat) (obj : response.Response) : Context :=
  { c with written := c.written ++ [(code, obj)] }

/-- Method `c.JSON(code, obj)` for a `gin.H` body. -/
def Context.JSONH (c : Context) (code : Nat) (obj : List (String × String)) : Context :=
  { c with writtenH := c.writtenH ++ [(code, obj)] }

/-- Method `c.GetUint(key)`: the value under `key` when it exists and is a
`uint`, and `0` otherwise. -/
def Context.GetUint (c : Context) (key : String) : Nat :=
  match c.Get key with
  | some (.uint n) => n
  | _ => 0

/-- A handler: given `next`, which is what `c.Next()` runs, and the context,
the context it leaves, or `none` when it panics. -/
abbrev HandlerFunc := (gin.Context → Option gin.Context) → gin.Context → Option gin.Context

/-- A context of a fresh request with the given headers. -/
def newContext (header : List (String × String)) : Context :=
  { Header := header, Keys := [], aborted := false, written := [], validated := [],
    writtenH := [] }

end gin

namespace response

def Success (c : gin.Context) (code : Nat) (message : String) (data : Option Data) :
    gin.Context :=
  c.JSON code { Success := true, Message := message, Data := data, Error := none }

def Error (c : gin.Context) (code : Nat) (message : String) (errors : AppErrors) :
    gin.Context :=
  c.JSON code { Success := false, Message := message, Data := none, Error := some errors }

end response

namespace http

def StatusUnauthorized : Nat := 401

def StatusForbidden : Nat := 403

end http

/-! ## Package strings -/

namespace strings

/-- Splitting a character list at every occurrence of `sep`: `n` occurrences
give `n + 1` parts. -/
def splitChars (sep : Char) : List Char → List (List Char)
  | [] => [[]]
  | ch :: rest =>
    if ch = sep then [] :: splitChars sep rest
    else
      match splitChars sep rest with
      | [] => [[ch]]
      | part :: parts => (ch :: part) :: parts

/-- Function `strings.Split(s, sep)` for a separator of one character, the
only way the code calls it. -/
def Split (s : String) (sep : Char) : List String :=
  (splitChars sep s.data).map String.mk

end strings

/-! ## Package middleware (internal/middleware/auth.go) -/

namespace middleware

def AuthMiddleware (jwtService : auth.JWTService) : gin.HandlerFunc := fun next c =>
  let authHeader := c.GetHeader "Authorization"
  if authHeader = "" then
    some (response.Error c http.StatusUnauthorized "Unauthorized"
      (apperror.NewErrors [apperror.NewError "authorization"
        "Authorization header is required"])).Abort
  else
    let tokenParts := strings.Split authHeader ' '
    if tokenParts.length ≠ 2 ∨ tokenParts.getD 0 "" ≠ "Bearer" then
      some (response.Error c http.StatusUnauthorized "Unauthorized"
        (apperror.NewErrors [apperror.NewError "authorization"
          "Invalid authorization format. Use: Bearer <token>"])).Abort
    else
      let c := { c with validated := c.validated ++ [tokenParts.getD 1 ""] }
      match jwtService.ValidateToken (tokenParts.getD 1 "") with
      | .error _ =>
        some (response.Error c http.StatusUnauthorized "Unauthorized"
          (apperror.NewErrors [apperror.NewError "token" "Invalid or expired token"])).Abort
      | .ok claims =>
        let c := c.Set "user_id" (.uint claims.UserID)
        let c := c.Set "user_email" (.str claims.Email)
        let c := c.Set "user_role" (.str claims.Role)
        next c

/-- The loop of `RoleMiddleware` over `allowedRoles`: stops at the first role
equal to `role`. -/
def roleAllowed (role : String) : List String → Bool
  | [] => false
  | allowedRole :: rest => if role = allowedRole then true else roleAllowed role rest

def RoleMiddleware (allowedRoles : List String) : gin.HandlerFunc := fun next c =>
  match c.Get "user_role" with
  | none =>
    some (response.Error c http.StatusUnauthorized "Unauthorized"
      (apperror.NewErrors [apperror.NewError "role" "User role not found in token"])).Abort
  | some (.str role) =>
    let allowed := roleAllowed role allowedRoles
    if !allowed then
      some (response.Error c http.StatusForbidden "Forbidden"
        (apperror.NewErrors [apperror.NewError "permission"
          "You don\x27t have permission to access this resource"])).Abort
    else
      next c
  | some _ => none

/-- The handler chain of the admin route group in `main`: `AuthMiddleware`,
then `RoleMiddleware("admin")`, then the route handler. -/
def adminChain (jwtService : auth.JWTService) (handler : gin.Context → Option gin.Context)
    (c : gin.Context) : Option gin.Context :=
  AuthMiddleware jwtService (RoleMiddleware ["admin"] handler) c

/-- The shape the header check accepts: the scheme `Bearer`, one space, and a
token without a space (the token may be empty). -/
def bearerOf (token : String) : String := "Bearer " ++ token

end middleware

/-! ## Package user: the remaining DTOs and service operations -/

namespace bcrypt

def DefaultCost : Nat := 10

end bcrypt

namespace user

structure RegisterDTO where
  Name : String
  Email : String
  Password : String
  PasswordConfirm : String
  deriving DecidableEq, Repr

structure UpdateUserDTO where
  Name : String
  Email : String
  deriving DecidableEq, Repr

structure ChangePasswordDTO where
  OldPassword : String
  NewPassword : String
  NewPasswordConfirm : String
  deriving DecidableEq, Repr

/-- Method `HashPassword`: on success the password of the user is replaced by
its hash; on failure the error is returned and the user is as before. -/
def User.HashPassword (bc : Bcrypt) (salt : Nat) (u : User) : Except GoError User :=
  match bc.GenerateFromPassword salt u.Password bcrypt.DefaultCost with
  | .error err => .error err
  | .ok hashedPassword => .ok { u with Password := hashedPassword }

def Register {σ : Type} (repo : Repository σ) (bc : Bcrypt) (salt : Nat) (s : σ)
    (dto : RegisterDTO) : Outcome σ Call (Except AppErrors UserResponse) :=
  if repo.EmailExists s dto.Email then
    { result := .error apperror.EmailAlreadyExists, store := s,
      calls := [.EmailExists dto.Email] }
  else
    let user : User :=
      { ID := 0, Name := dto.Name, Email := dto.Email, Password := dto.Password,
        Role := "user", CreatedAt := 0, UpdatedAt := 0 }
    match user.HashPassword bc salt with
    | .error err =>
      { result := .error (apperror.DatabaseError (some err)), store := s,
        calls := [.EmailExists dto.Email] }
    | .ok user =>
      match repo.Create s user with
      | (s1, _, some err) =>
        { result := .error (apperror.DatabaseError (some err)), store := s1,
          calls := [.EmailExists dto.Email, .Create user] }
      | (s1, user1, none) =>
        { result := .ok user1.ToResponse, store := s1,
          calls := [.EmailExists dto.Email, .Create user] }

def GetAllUsers {σ : Type} (repo : Repository σ) (s : σ) :
    Outcome σ Call (Except AppErrors (List UserResponse)) :=
  match repo.FindAll s with
  | (_, some err) =>
    { result := .error (apperror.DatabaseError (some err)), store := s, calls := [.FindAll] }
  | (users, none) =>
    { result := .ok (users.map User.ToResponse), store := s, calls := [.FindAll] }

def GetUserByID {σ : Type} (repo : Repository σ) (s : σ) (id : Nat) :
    Outcome σ Call (Except AppErrors UserResponse) :=
  match repo.FindByID s id with
  | .error err =>
    if err = GoError.ErrRecordNotFound then
      { result := .error apperror.UserNotFound, store := s, calls := [.FindByID id] }
    else
      { result := .error (apperror.DatabaseError (some err)), store := s,
        calls := [.FindByID id] }
  | .ok user => { result := .ok user.ToResponse, store := s, calls := [.FindByID id] }

def GetProfile {σ : Type} (repo : Repository σ) (s : σ) (id : Nat) :
    Outcome σ Call (Except AppErrors UserResponse) :=
  GetUserByID repo s id

/-- The tail of `UpdateUser`: `repo.Update` and the projection of the user. -/
def saveUser {σ : Type} (repo : Repository σ) (s : σ) (user : User) (before : List Call) :
    Outcome σ Call (Except AppErrors UserResponse) :=
  match repo.Update s user with
  | (s1, _, some err) =>
    { result := .error (apperror.DatabaseError (some err)), store := s1,
      calls := before ++ [.Update user] }
  | (s1, user1, none) =>
    { result := .ok user1.ToResponse, store := s1, calls := before ++ [.Update user] }

def UpdateUser {σ : Type} (repo : Repository σ) (s : σ) (id : Nat) (dto : UpdateUserDTO) :
    Outcome σ Call (Except AppErrors UserResponse) :=
  match repo.FindByID s id with
  | .error err =>
    if err = GoError.ErrRecordNotFound then
      { result := .error apperror.UserNotFound, store := s, calls := [.FindByID id] }
    else
      { result := .error (apperror.DatabaseError (some err)), store := s,
        calls := [.FindByID id] }
  | .ok user =>
    let user := if dto.Name ≠ "" then { user with Name := dto.Name } else user
    if dto.Email ≠ "" then
      match repo.FindByEmail s dto.Email with
      | .ok existingUser =>
        if existingUser.ID ≠ id then
          { result := .error apperror.EmailAlreadyExists, store := s,
            calls := [.FindByID id, .FindByEmail dto.Email] }
        else
          saveUser repo s { user with Email := dto.Email }
            [.FindByID id, .FindByEmail dto.Email]
      | .error _ =>
        saveUser repo s { user with Email := dto.Email }
          [.FindByID id, .FindByEmail dto.Email]
    else
      saveUser repo s user [.FindByID id]

def ChangePassword {σ : Type} (repo : Repository σ) (bc : Bcrypt) (salt : Nat) (s : σ)
    (id : Nat) (dto : ChangePasswordDTO) : Outcome σ Call (Option AppErrors) :=
  match repo.FindByID s id with
  | .error err =>
    if err = GoError.ErrRecordNotFound then
      { result := some apperror.UserNotFound, store := s, calls := [.FindByID id] }
    else
      { result := some (apperror.DatabaseError (some err)), store := s,
        calls := [.FindByID id] }
  | .ok user =>
    if !user.CheckPassword bc dto.OldPassword then
      { result := some apperror.OldPasswordIncorrect, store := s, calls := [.FindByID id] }
    else
      let user := { user with Password := dto.NewPassword }
      match user.HashPassword bc salt with
      | .error err =>
        { result := some (apperror.DatabaseError (some err)), store := s,
          calls := [.FindByID id] }
      | .ok user =>
        match repo.Update s user with
        | (s1, _, some err) =>
          { result := some (apperror.DatabaseError (some err)), store := s1,
            calls := [.FindByID id, .Update user] }
        | (s1, _, none) =>
          { result := none, store := s1, calls := [.FindByID id, .Update user] }

def DeleteUser {σ : Type} (repo : Repository σ) (s : σ) (id : Nat) :
    Outcome σ Call (Option AppErrors) :=
  match repo.FindByID s id with
  | .error err =>
    if err = GoError.ErrRecordNotFound then
      { result := some apperror.UserNotFound, store := s, calls := [.FindByID id] }
    else
      { result := some (apperror.DatabaseError (some err)), store := s,
        calls := [.FindByID id] }
  | .ok user =>
    match repo.Delete s user.ID with
    | (s1, some err) =>
      { result := some (apperror.DatabaseError (some err)), store := s1,
        calls := [.FindByID id, .Delete user.ID] }
    | (s1, none) =>
      { result := none, store := s1, calls := [.FindByID id, .Delete user.ID] }

/-- A stand-in for bcrypt with the length limit of the library:
`GenerateFromPassword` rejects a password of more than 72 bytes with
`ErrPasswordTooLong` and otherwise answers as `toyBcrypt`. -/
def boundedBcrypt : Bcrypt where
  GenerateFromPassword := fun salt password cost =>
    if password.utf8ByteSize > 72 then
      .error (GoError.other "bcrypt: password length exceeds 72 bytes")
    else toyBcrypt.GenerateFromPassword salt password cost
  CompareHashAndPassword := toyBcrypt.CompareHashAndPassword

/-- A stored user whose password hash, under `toyBcrypt`, is that of
`"secret1"`. -/
def storedJohn : User :=
  { ID := 5, Name := "John", Email := "john@x.com", Password := "$3$secret1",
    Role := "user", CreatedAt := 100, UpdatedAt := 100 }

end user

/-! ## Package post: the remaining service operations -/

namespace post

def GetAllPosts {σ : Type} (repo : Repository σ) (s : σ) :
    Result σ (List PostResponse) :=
  match repo.FindAll s with
  | (_, some err) =>
    { result := .error (apperror.DatabaseError (some err)), store := s, calls := [.FindAll] }
  | (posts, none) =>
    { result := .ok (posts.map Post.ToResponse), store := s, calls := [.FindAll] }

def GetPostsByUserID {σ : Type} (repo : Repository σ) (s : σ) (userID : Nat) :
    Result σ (List PostResponse) :=
  match repo.FindByUserID s userID with
  | (_, some err) =>
    { result := .error (apperror.DatabaseError (some err)), store := s,
      calls := [.FindByUserID userID] }
  | (posts, none) =>
    { result := .ok (posts.map Post.ToResponse), store := s,
      calls := [.FindByUserID userID] }

def GetMyPosts {σ : Type} (repo : Repository σ) (s : σ) (userID : Nat) :
    Result σ (List PostResponse) :=
  GetPostsByUserID repo s userID

end post

/-! ## Packages unicode, strings (ToLower), strconv and validator -/

namespace unicode

/-- Function `unicode.ToLower`: the ASCII letters `A` to `Z` are mapped to
`a` to `z`, every other ASCII rune is unchanged, and a rune outside ASCII is
mapped by the case tables of the Unicode standard, which are the parameter
`table`. -/
def ToLower (table : Char → Char) (r : Char) : Char :=
  if r.val ≤ 127 then
    if 'A' ≤ r ∧ r ≤ 'Z' then Char.ofNat (r.toNat + 32) else r
  else table r

end unicode

namespace strings

/-- Function `strings.ToLower`: every rune mapped by `unicode.ToLower`. -/
def ToLower (table : Char → Char) (s : String) : String :=
  String.mk (s.data.map (unicode.ToLower table))

end strings

namespace strconv

/-- The two kinds of `strconv.NumError`. -/
inductive NumError where
  | ErrSyntax
  | ErrRange
  deriving DecidableEq, Repr

/-- The error value of a `NumError`; the callers only test it for nil, and it
carries the text of the kind. -/
def NumError.toError : NumError → GoError
  | .ErrSyntax => GoError.other "invalid syntax"
  | .ErrRange => GoError.other "value out of range"

/-- The digit loop of `ParseUint` in base 10 with the largest value `maxVal`,
from the value `n` read so far: a character that is not one of `0` to `9` is a
syntax error, and a digit that takes the value above `maxVal` is a range
error, reported at that digit, before the characters after it are looked at. -/
def parseDigits (maxVal : Nat) : Nat → List Char → Except NumError Nat
  | n, [] => .ok n
  | n, c :: rest =>
    if '0' ≤ c ∧ c ≤ '9' then
      if n * 10 + (c.toNat - '0'.toNat) > maxVal then .error .ErrRange
      else parseDigits maxVal (n * 10 + (c.toNat - '0'.toNat)) rest
    else .error .ErrSyntax

/-- Function `strconv.ParseUint(s, 10, bitSize)`, value and error: on a syntax
error the value is `0`, on a range error the largest value of the size. -/
def ParseUint (s : List Char) (bitSize : Nat) : Nat × Option NumError :=
  if s = [] then (0, some .ErrSyntax)
  else
    match parseDigits (2 ^ bitSize - 1) 0 s with
    | .ok n => (n, none)
    | .error .ErrSyntax => (0, some .ErrSyntax)
    | .error .ErrRange => (2 ^ bitSize - 1, some .ErrRange)

/-- Function `strconv.ParseInt(s, 10, bitSize)`, value and error: an optional
sign, then `ParseUint` of the rest; a syntax error gives `0`, and a magnitude
outside the signed range of the size gives the nearest bound of the range,
with a range error. -/
def ParseInt (s : List Char) (bitSize : Nat) : Int × Option NumError :=
  if s = [] then (0, some .ErrSyntax)
  else
    let neg : Bool := s.head? = some '-'
    let digits : List Char :=
      if s.head? = some '+' ∨ s.head? = some '-' then s.tail else s
    match ParseUint digits bitSize with
    | (_, some .ErrSyntax) => (0, some .ErrSyntax)
    | (un, _) =>
      if !neg ∧ un ≥ 2 ^ (bitSize - 1) then
        ((2 : Int) ^ (bitSize - 1) - 1, some .ErrRange)
      else if neg ∧ un > 2 ^ (bitSize - 1) then
        (-(2 : Int) ^ (bitSize - 1), some .ErrRange)
      else (if neg then -(un : Int) else (un : Int), none)

/-- The size of `int` in bits, on a 64-bit platform. -/
def IntSize : Nat := 64

/-- Function `strconv.Atoi(s)`, value and error.  It is `ParseInt(s, 10, 0)`
converted to `int`; the fast path that `Atoi` takes for strings of fewer than
19 bytes computes the same value and the same kind of error. -/
def Atoi (s : String) : Int × Option NumError :=
  ParseInt s.data IntSize

end strconv

namespace validator

/-- What the methods `Field()`, `Tag()` and `Param()` of a
`validator.FieldError` return. -/
structure FieldError where
  Field : String
  Tag : String
  Param : String
  deriving DecidableEq, Repr

/-- The error a binding returns: a `validator.ValidationErrors`, which is a
list of field errors, or any other error. -/
inductive BindError where
  | ValidationErrors (errs : List FieldError)
  | other (err : GoError)
  deriving DecidableEq, Repr

structure ValidationError where
  Field : String
  Message : String
  deriving DecidableEq, Repr

/-- The loop of `toSnakeCase`: `i` is the byte index of the rune `r` in the
string and `result` the builder. -/
def snakeLoop : Nat → List Char → List Char → List Char
  | _, [], result => result
  | i, r :: rest, result =>
    let result := if i > 0 ∧ r ≥ 'A' ∧ r ≤ 'Z' then result ++ ['_'] else result
    snakeLoop (i + r.utf8Size) rest (result ++ [r])

def toSnakeCase (table : Char → Char) (str : String) : String :=
  strings.ToLower table (String.mk (snakeLoop 0 str.data []))

def formatErrorMessage (table : Char → Char) (e : FieldError) : String :=
  let field := toSnakeCase table e.Field
  if e.Tag = "required" then "The " ++ field ++ " field is required"
  else if e.Tag = "email" then "The " ++ field ++ " must be a valid email address"
  else if e.Tag = "min" then
    "The " ++ field ++ " must be at least " ++ e.Param ++ " characters"
  else if e.Tag = "max" then
    "The " ++ field ++ " must not exceed " ++ e.Param ++ " characters"
  else if e.Tag = "eqfield" then
    "The " ++ field ++ " must match " ++ toSnakeCase table e.Param
  else "The " ++ field ++ " is invalid"

/-- The loop of `FormatValidationErrors`, appending one entry for each field
error to `errors`. -/
def appendErrors (table : Char → Char) : List ValidationError → List FieldError →
    List ValidationError
  | errors, [] => errors
  | errors, e :: rest =>
    appendErrors table
      (errors ++ [{ Field := toSnakeCase table e.Field,
                    Message := formatErrorMessage table e }]) rest

def FormatValidationErrors (table : Char → Char) (err : BindError) : List ValidationError :=
  match err with
  | .ValidationErrors validationErrors => appendErrors table [] validationErrors
  | .other _ => []

/-- The description of `toSnakeCase` in words: an underscore is put before
every ASCII upper-case letter that is not the first rune. -/
def insertUnderscores : List Char → List Char
  | [] => []
  | r :: rest =>
    r :: (rest.map (fun x => if 'A' ≤ x ∧ x ≤ 'Z' then ['_', x] else [x])).flatten

/-- The description of `FormatValidationErrors` in words: the names with
underscores inserted, then lower-cased. -/
def snakeCaseInWords (table : Char → Char) (str : String) : String :=
  String.mk ((insertUnderscores str.data).map (unicode.ToLower table))

end validator

/-! ## Package response: validation and internal errors -/

namespace http

def StatusOK : Nat := 200

def StatusCreated : Nat := 201

def StatusBadRequest : Nat := 400

def StatusNotFound : Nat := 404

end http

namespace response

/-- The entries of a validation error list as they appear in the `error`
field of the response body: the same two fields `field` and `message`. -/
def ofValidationErrors (errors : List validator.ValidationError) : AppErrors :=
  errors.map (fun e => { Field := e.Field, Message := e.Message })

def ValidationError (table : Char → Char) (c : gin.Context) (err : validator.BindError) :
    gin.Context :=
  let errors := validator.FormatValidationErrors table err
  c.JSON 400 { Success := false, Message := "Validation failed", Data := none,
               Error := some (ofValidationErrors errors) }

def InternalError (c : gin.Context) (err : Option GoError) : gin.Context :=
  c.JSON 500 { Success := false, Message := "Internal server error", Data := none,
               Error := some (apperror.DatabaseError err) }

end response

/-! ## Package post: handlers

A handler receives what it reads from the request as arguments: `idParam` is
`c.Param("id")` (or `c.Param("user_id")`), and `bound` is the outcome of
`c.ShouldBindJSON(&dto)`, the DTO or the binding error.  The service of the
handler is the service over the repository `repo` and the store `s`. -/

namespace post

abbrev Handled (σ : Type) := Outcome σ Call gin.Context

def Handler.CreatePost {σ : Type} (table : Char → Char) (repo : Repository σ) (s : σ)
    (bound : Except validator.BindError CreatePostDTO) (c : gin.Context) : Handled σ :=
  let userID := c.GetUint "user_id"
  match bound with
  | .error err =>
    { result := response.ValidationError table c err, store := s, calls := [] }
  | .ok dto =>
    let r := post.CreatePost repo s userID dto
    match r.result with
    | .error _ =>
      { result := response.InternalError c none, store := r.store, calls := r.calls }
    | .ok post =>
      { result := response.Success c http.StatusCreated "Post created successfully"
          (some (.post post)), store := r.store, calls := r.calls }

def Handler.GetAllPosts {σ : Type} (repo : Repository σ) (s : σ) (c : gin.Context) :
    Handled σ :=
  let r := post.GetAllPosts repo s
  match r.result with
  | .error _ =>
    { result := response.InternalError c none, store := r.store, calls := r.calls }
  | .ok posts =>
    { result := response.Success c http.StatusOK "Posts retrieved successfully"
        (some (.posts posts)), store := r.store, calls := r.calls }

def Handler.GetPostByID {σ : Type} (repo : Repository σ) (s : σ) (idParam : String)
    (c : gin.Context) : Handled σ :=
  match strconv.ParseUint idParam.data 32 with
  | (_, some _) =>
    { result := response.Error c http.StatusBadRequest "Invalid ID" apperror.InvalidID,
      store := s, calls := [] }
  | (id, none) =>
    let r := post.GetPostByID repo s id
    match r.result with
    | .error appErr =>
      { result := response.Error c http.StatusNotFound "Post not found" appErr,
        store := r.store, calls := r.calls }
    | .ok post =>
      { result := response.Success c http.StatusOK "Post retrieved successfully"
          (some (.post post)), store := r.store, calls := r.calls }

def Handler.GetPostsByUserID {σ : Type} (repo : Repository σ) (s : σ) (idParam : String)
    (c : gin.Context) : Handled σ :=
  match strconv.ParseUint idParam.data 32 with
  | (_, some _) =>
    { result := response.Error c http.StatusBadRequest "Invalid user ID" apperror.InvalidID,
      store := s, calls := [] }
  | (userID, none) =>
    let r := post.GetPostsByUserID repo s userID
    match r.result with
    | .error _ =>
      { result := response.InternalError c none, store := r.store, calls := r.calls }
    | .ok posts =>
      { result := response.Success c http.StatusOK "Posts retrieved successfully"
          (some (.posts posts)), store := r.store, calls := r.calls }

def Handler.GetMyPosts {σ : Type} (repo : Repository σ) (s : σ) (c : gin.Context) :
    Handled σ :=
  let userID := c.GetUint "user_id"
  let r := post.GetMyPosts repo s userID
  match r.result with
  | .error _ =>
    { result := response.InternalError c none, store := r.store, calls := r.calls }
  | .ok posts =>
    { result := response.Success c http.StatusOK "Posts retrieved successfully"
        (some (.posts posts)), store := r.store, calls := r.calls }

def Handler.UpdatePost {σ : Type} (table : Char → Char) (repo : Repository σ) (s : σ)
    (idParam : String) (bound : Except validator.BindError UpdatePostDTO)
    (c : gin.Context) : Handled σ :=
  let userID := c.GetUint "user_id"
  match strconv.ParseUint idParam.data 32 with
  | (_, some _) =>
    { result := response.Error c http.StatusBadRequest "Invalid ID" apperror.InvalidID,
      store := s, calls := [] }
  | (id, none) =>
    match bound with
    | .error err =>
      { result := response.ValidationError table c err, store := s, calls := [] }
    | .ok dto =>
      let r := post.UpdatePost repo s id userID dto
      match r.result with
      | .error appErr =>
        { result := response.Error c http.StatusForbidden "Failed to update post" appErr,
          store := r.store, calls := r.calls }
      | .ok post =>
        { result := response.Success c http.StatusOK "Post updated successfully"
            (some (.post post)), store := r.store, calls := r.calls }

def Handler.DeletePost {σ : Type} (repo : Repository σ) (s : σ) (idParam : String)
    (c : gin.Context) : Handled σ :=
  let userID := c.GetUint "user_id"
  match strconv.ParseUint idParam.data 32 with
  | (_, some _) =>
    { result := response.Error c http.StatusBadRequest "Invalid ID" apperror.InvalidID,
      store := s, calls := [] }
  | (id, none) =>
    let r := post.DeletePost repo s id userID
    match r.result with
    | some appErr =>
      { result := response.Error c http.StatusForbidden "Failed to delete post" appErr,
        store := r.store, calls := r.calls }
    | none =>
      { result := response.Success c http.StatusOK "Post deleted successfully" none,
        store := r.store, calls := r.calls }

end post

/-! ## Package user: handlers -/

namespace user

abbrev Handled (σ : Type) := Outcome σ Call gin.Context

def Handler.Register {σ : Type} (table : Char → Char) (repo : Repository σ) (bc : Bcrypt)
    (salt : Nat) (s : σ) (bound : Except validator.BindError RegisterDTO)
    (c : gin.Context) : Handled σ :=
  match bound with
  | .error err =>
    { result := response.ValidationError table c err, store := s, calls := [] }
  | .ok dto =>
    let r := user.Register repo bc salt s dto
    match r.result with
    | .error appErr =>
      { result := response.Error c http.StatusBadRequest "Failed to register user" appErr,
        store := r.store, calls := r.calls }
    | .ok user =>
      { result := response.Success c http.StatusCreated "User registered successfully"
          (some (.user user)), store := r.store, calls := r.calls }

def Handler.Login {σ : Type} (table : Char → Char) (repo : Repository σ)
    (jwtService : auth.JWTService) (bc : Bcrypt) (s : σ)
    (bound : Except validator.BindError LoginDTO) (c : gin.Context) : Handled σ :=
  match bound with
  | .error err =>
    { result := response.ValidationError table c err, store := s, calls := [] }
  | .ok dto =>
    let r := user.Login repo jwtService bc s dto
    match r.result with
    | .error appErr =>
      { result := response.Error c http.StatusUnauthorized "Login failed" appErr,
        store := r.store, calls := r.calls }
    | .ok result =>
      { result := response.Success c http.StatusOK "Login successful"
          (some (.login result)), store := r.store, calls := r.calls }

def Handler.GetProfile {σ : Type} (repo : Repository σ) (s : σ) (c : gin.Context) :
    Handled σ :=
  let userID := c.GetUint "user_id"
  let r := user.GetProfile repo s userID
  match r.result with
  | .error appErr =>
    { result := response.Error c http.StatusNotFound "User not found" appErr,
      store := r.store, calls := r.calls }
  | .ok user =>
    { result := response.Success c http.StatusOK "Profile retrieved successfully"
        (some (.user user)), store := r.store, calls := r.calls }

def Handler.GetAllUsers {σ : Type} (repo : Repository σ) (s : σ) (c : gin.Context) :
    Handled σ :=
  let r := user.GetAllUsers repo s
  match r.result with
  | .error _ =>
    { result := response.InternalError c none, store := r.store, calls := r.calls }
  | .ok users =>
    { result := response.Success c http.StatusOK "Users retrieved successfully"
        (some (.users users)), store := r.store, calls := r.calls }

def Handler.GetUserByID {σ : Type} (repo : Repository σ) (s : σ) (idParam : String)
    (c : gin.Context) : Handled σ :=
  match strconv.ParseUint idParam.data 32 with
  | (_, some _) =>
    { result := response.Error c http.StatusBadRequest "Invalid ID" apperror.InvalidID,
      store := s, calls := [] }
  | (id, none) =>
    let r := user.GetUserByID repo s id
    match r.result with
    | .error appErr =>
      { result := response.Error c http.StatusNotFound "User not found" appErr,
        store := r.store, calls := r.calls }
    | .ok user =>
      { result := response.Success c http.StatusOK "User retrieved successfully"
          (some (.user user)), store := r.store, calls := r.calls }

def Handler.UpdateProfile {σ : Type} (table : Char → Char) (repo : Repository σ) (s : σ)
    (bound : Except validator.BindError UpdateUserDTO) (c : gin.Context) : Handled σ :=
  let userID := c.GetUint "user_id"
  match bound with
  | .error err =>
    { result := response.ValidationError table c err, store := s, calls := [] }
  | .ok dto =>
    let r := user.UpdateUser repo s userID dto
    match r.result with
    | .error appErr =>
      { result := response.Error c http.StatusBadRequest "Failed to update profile" appErr,
        store := r.store, calls := r.calls }
    | .ok user =>
      { result := response.Success c http.StatusOK "Profile updated successfully"
          (some (.user user)), store := r.store, calls := r.calls }

def Handler.UpdateUser {σ : Type} (table : Char → Char) (repo : Repository σ) (s : σ)
    (idParam : String) (bound : Except validator.BindError UpdateUserDTO)
    (c : gin.Context) : Handled σ :=
  match strconv.ParseUint idParam.data 32 with
  | (_, some _) =>
    { result := response.Error c http.StatusBadRequest "Invalid ID" apperror.InvalidID,
      store := s, calls := [] }
  | (id, none) =>
    match bound with
    | .error err =>
      { result := response.ValidationError table c err, store := s, calls := [] }
    | .ok dto =>
      let r := user.UpdateUser repo s id dto
      match r.result with
      | .error appErr =>
        { result := response.Error c http.StatusBadRequest "Failed to update user" appErr,
          store := r.store, calls := r.calls }
      | .ok user =>
        { result := response.Success c http.StatusOK "User updated successfully"
            (some (.user user)), store := r.store, calls := r.calls }

def Handler.ChangePassword {σ : Type} (table : Char → Char) (repo : Repository σ)
    (bc : Bcrypt) (salt : Nat) (s : σ)
    (bound : Except validator.BindError ChangePasswordDTO) (c : gin.Context) : Handled σ :=
  let userID := c.GetUint "user_id"
  match bound with
  | .error err =>
    { result := response.ValidationError table c err, store := s, calls := [] }
  | .ok dto =>
    let r := user.ChangePassword repo bc salt s userID dto
    match r.result with
    | some appErr =>
      { result := response.Error c http.StatusBadRequest "Failed to change password" appErr,
        store := r.store, calls := r.calls }
    | none =>
      { result := response.Success c http.StatusOK "Password changed successfully" none,
        store := r.store, calls := r.calls }

def Handler.DeleteUser {σ : Type} (repo : Repository σ) (s : σ) (idParam : String)
    (c : gin.Context) : Handled σ :=
  match strconv.ParseUint idParam.data 32 with
  | (_, some _) =>
    { result := response.Error c http.StatusBadRequest "Invalid ID" apperror.InvalidID,
      store := s, calls := [] }
  | (id, none) =>
    let r := user.DeleteUser repo s id
    match r.result with
    | some appErr =>
      { result := response.Error c http.StatusNotFound "Failed to delete user" appErr,
        store := r.store, calls := r.calls }
    | none =>
      { result := response.Success c http.StatusOK "User deleted successfully" none,
        store := r.store, calls := r.calls }

end user

/-! ## Package middleware of internal/common (role.go) -/

namespace commonmiddleware

/-- The loop of `RoleMiddleware` over `allowedRoles`: whether some element is
equal to the value found under the key; a value that is not a string is equal
to none. -/
def roleMatches (role : gin.Value) : List String → Bool
  | [] => false
  | r :: rest => if role = gin.Value.str r then true else roleMatches role rest

def RoleMiddleware (allowedRoles : List String) : gin.HandlerFunc := fun next c =>
  match c.Get "role" with
  | none => some (c.JSONH http.StatusForbidden [("message", "Role not found")]).Abort
  | some role =>
    if roleMatches role allowedRoles then next c
    else some (c.JSONH http.StatusForbidden [("message", "Access denied")]).Abort

end commonmiddleware

/-! ## Package config -/

namespace config

structure Config where
  DBHost : String
  DBPort : String
  DBUser : String
  DBPassword : String
  DBName : String
  ServerPort : String
  JWTSecret : String
  JWTExpireHours : Int
  deriving DecidableEq, Repr

/-- The process environment: the value of a variable, `none` when it is
unset. -/
abbrev Environ := String → Option String

/-- Function `os.Getenv`: the value, `""` when the variable is unset. -/
def Getenv (env : Environ) (key : String) : String :=
  (env key).getD ""

def getEnv (env : Environ) (key defaultValue : String) : String :=
  let value := Getenv env key
  if value ≠ "" then value else defaultValue

/-- Function `LoadConfig`, configuration and error, on the environment `env`
as it is after `godotenv.Load()`. -/
def LoadConfig (env : Environ) : Config × Option GoError :=
  let expireHours := (strconv.Atoi (getEnv env "JWT_EXPIRE_HOURS" "24")).1
  ({ DBHost := getEnv env "DB_HOST" "localhost",
     DBPort := getEnv env "DB_PORT" "3306",
     DBUser := getEnv env "DB_USER" "root",
     DBPassword := getEnv env "DB_PASSWORD" "",
     DBName := getEnv env "DB_NAME" "testdb",
     ServerPort := getEnv env "SERVER_PORT" "8080",
     JWTSecret := getEnv env "JWT_SECRET" "your-secret-key",
     JWTExpireHours := expireHours }, none)

/-- An environment with the one variable `JWT_EXPIRE_HOURS` set to `v`. -/
def envWithHours (v : String) : Environ :=
  fun key => if key = "JWT_EXPIRE_HOURS" then some v else none

/-- The value of a list of decimal digits, read after the value `n`. -/
def decimalValue (n : Nat) (digits : List Char) : Nat :=
  digits.foldl (fun a c => a * 10 + (c.toNat - '0'.toNat)) n

/-- Whether every character is one of `0` to `9`. -/
def allDigits (digits : List Char) : Prop :=
  ∀ c ∈ digits, '0' ≤ c ∧ c ≤ '9'

/-- The sign prefixes of a decimal integer: none, `+` or `-`. -/
def isSign (sign : List Char) : Prop :=
  sign = [] ∨ sign = ['+'] ∨ sign = ['-']

/-- The integer with the given sign prefix and magnitude. -/
def signedValue (sign : List Char) (n : Nat) : Int :=
  if sign = ['-'] then -(n : Int) else (n : Int)

/-- Whether the magnitude, with the sign prefix, is a value of `int`. -/
@[reducible] def inRange (sign : List Char) (n : Nat) : Prop :=
  if sign = ['-'] then n ≤ 2 ^ 63 else n < 2 ^ 63

/-- The bound of `int` on the side of the sign prefix. -/
def signBound (sign : List Char) : Int :=
  if sign = ['-'] then -(2 : Int) ^ 63 else (2 : Int) ^ 63 - 1

end config

/-! ## Package auth: the credential service, from the specification -/

namespace auth

/-- Modelled from the spec: the credential of section 3, a signed assertion of
the claims with the time of issue and the time of expiry, in seconds; package
internal/auth is not among the sources.  `unparsable` is a token that cannot
be parsed into that shape. -/
inductive Token where
  | signed (claims : Claims) (issuedAt expiresAt : Int) (signature : Nat)
  | unparsable (raw : String)
  deriving DecidableEq, Repr

/-- Modelled from the spec: the three failures of `validate` in section 4.1;
package internal/auth is not among the sources. -/
inductive ValidateError where
  | InvalidSignature
  | Expired
  | Malformed
  deriving DecidableEq, Repr

/-- Modelled from the spec: the credential service of section 4.1, made by
`NewJWTService(secret, expireHours)`; package internal/auth is not among the
sources.  `sign` is the keyed signature of the symmetric secret over the
claims and the two times; it fails only when the signing infrastructure
does. -/
structure jwtService where
  secretKey : String
  expireHours : Int
  sign : String → Claims → Int → Int → Except GoError Nat

/-- Modelled from the spec: `issue` of section 4.1 at the clock value `now`
(package internal/auth is not among the sources): a signed credential with the
three claims, valid for the configured duration, the expiry encoded as an
absolute time; it fails only when signing fails. -/
def GenerateToken (svc : jwtService) (now : Int) (userID : Nat) (email role : String) :
    Except GoError Token :=
  let claims : Claims := { UserID := userID, Email := email, Role := role }
  let expiresAt := now + svc.expireHours * 3600
  match svc.sign svc.secretKey claims now expiresAt with
  | .error err => .error err
  | .ok signature => .ok (.signed claims now expiresAt signature)

/-- Modelled from the spec: `validate` of section 4.1 at the clock value `now`
(package internal/auth is not among the sources): `Malformed` when the token
cannot be parsed, `InvalidSignature` when the signature does not verify,
`Expired` when the current time is at or after the encoded expiry, and
otherwise the three claims verbatim. -/
def ValidateToken (svc : jwtService) (now : Int) (token : Token) :
    Except ValidateError Claims :=
  match token with
  | .unparsable _ => .error .Malformed
  | .signed claims issuedAt expiresAt signature =>
    match svc.sign svc.secretKey claims issuedAt expiresAt with
    | .error _ => .error .InvalidSignature
    | .ok expected =>
      if expected ≠ signature then .error .InvalidSignature
      else if now ≥ expiresAt then .error .Expired
      else .ok claims

/-- A service with a 24 hour duration whose signature is the sum of the
lengths of the secret, the email and the role plus the subject id. -/
def sampleService : jwtService :=
  { secretKey := "your-secret-key", expireHours := 24,
    sign := fun key claims _ _ =>
      .ok (key.length + claims.Email.length + claims.Role.length + claims.UserID) }

end auth

/-! ## Repositories with a failing store, for running the handlers -/

namespace post

/-- The in-memory repository with a store failure: `Create` and `Update` fail
with the error message `m`. -/
def failingRepository (m : String) : Repository (List Post) :=
  { memRepository with
    Create := fun s p => (s, p, some (GoError.other m))
    Update := fun s _ => (s, some (GoError.other m)) }

end post

namespace user

/-- The in-memory repository with a store failure: `Create` fails with the
error message `m`. -/
def failingRepository (m : String) : Repository (List User) :=
  { memRepository with Create := fun s u => (s, u, some (GoError.other m)) }

end user

/-! ## Theorems: ownership policy of the post service -/

section PostService

open post

/-- C1: `UpdatePost` and `DeletePost` return `PostNotFound` when the repository
reports the post absent and `OwnershipRequired` when the post exists with an
owner other than the requester; in both cases the only repository call is the
lookup and the store is unchanged.  A mutating call (`Update`, `Delete`) occurs
only when the lookup succeeded with `post.UserID` equal to the requester id. -/
theorem post_mutation_ownership_gate {σ : Type} (repo : Repository σ) (s : σ)
    (id userID : Nat) (dto : UpdatePostDTO) :
    (repo.FindByID s id = .error GoError.ErrRecordNotFound →
      ((UpdatePost repo s id userID dto).result = .error apperror.PostNotFound ∧
       (UpdatePost repo s id userID dto).store = s ∧
       (UpdatePost repo s id userID dto).calls = [Call.FindByID id]) ∧
      ((DeletePost repo s id userID).result = some apperror.PostNotFound ∧
       (DeletePost repo s id userID).store = s ∧
       (DeletePost repo s id userID).calls = [Call.FindByID id])) ∧
    (∀ p : Post, repo.FindByID s id = .ok p → p.UserID ≠ userID →
      ((UpdatePost repo s id userID dto).result = .error apperror.OwnershipRequired ∧
       (UpdatePost repo s id userID dto).store = s ∧
       (UpdatePost repo s id userID dto).calls = [Call.FindByID id]) ∧
      ((DeletePost repo s id userID).result = some apperror.OwnershipRequired ∧
       (DeletePost repo s id userID).store = s ∧
       (DeletePost repo s id userID).calls = [Call.FindByID id])) ∧
    ((UpdatePost repo s id userID dto).calls.any Call.isMutation = true →
      ∃ p : Post, repo.FindByID s id = .ok p ∧ p.UserID = userID) ∧
    ((DeletePost repo s id userID).calls.any Call.isMutation = true →
      ∃ p : Post, repo.FindByID s id = .ok p ∧ p.UserID = userID) := by
  refine ⟨?_, ?_, ?_, ?_⟩
  · intro h
    simp [UpdatePost, DeletePost, h]
  · intro p h hne
    simp [UpdatePost, DeletePost, h, hne]
  · intro h
    unfold UpdatePost at h
    cases hf : repo.FindByID s id with
    | error err =>
      rw [hf] at h
      by_cases he : err = GoError.ErrRecordNotFound <;> simp [he, Call.isMutation] at h
    | ok p =>
      by_cases hu : p.UserID = userID
      · exact ⟨p, rfl, hu⟩
      · rw [hf] at h
        simp [hu, Call.isMutation] at h
  · intro h
    unfold DeletePost at h
    cases hf : repo.FindByID s id with
    | error err =>
      rw [hf] at h
      by_cases he : err = GoError.ErrRecordNotFound <;> simp [he, Call.isMutation] at h
    | ok p =>
      by_cases hu : p.UserID = userID
      · exact ⟨p, rfl, hu⟩
      · rw [hf] at h
        simp [hu, Call.isMutation] at h

/-- Witness for C1 on the in-memory repository holding one post with id 1 owned
by subject 5: id 2 is absent, requester 7 is not the owner, requester 5 is. -/
theorem post_mutation_ownership_gate_witness :
    ((UpdatePost memRepository [samplePost] 2 5 ⟨"New", ""⟩).result
        = .error apperror.PostNotFound ∧
      (DeletePost memRepository [samplePost] 2 5).calls = [Call.FindByID 2]) ∧
    ((UpdatePost memRepository [samplePost] 1 7 ⟨"New", ""⟩).result
        = .error apperror.OwnershipRequired ∧
      (DeletePost memRepository [samplePost] 1 7).store = [samplePost]) ∧
    (∃ p : Post, memRepository.FindByID [samplePost] 1 = .ok p ∧ p.UserID = 5) ∧
    (∃ p : Post, memRepository.FindByID [samplePost] 1 = .ok p ∧ p.UserID = 5) :=
  ⟨⟨((post_mutation_ownership_gate memRepository [samplePost] 2 5 ⟨"New", ""⟩).1 rfl).1.1,
    ((post_mutation_ownership_gate memRepository [samplePost] 2 5 ⟨"New", ""⟩).1 rfl).2.2.2⟩,
   ⟨((post_mutation_ownership_gate memRepository [samplePost] 1 7 ⟨"New", ""⟩).2.1
      samplePost rfl (by decide)).1.1,
    ((post_mutation_ownership_gate memRepository [samplePost] 1 7 ⟨"New", ""⟩).2.1
      samplePost rfl (by decide)).2.2.1⟩,
   (post_mutation_ownership_gate memRepository [samplePost] 1 5 ⟨"New", ""⟩).2.2.1 rfl,
   (post_mutation_ownership_gate memRepository [samplePost] 1 5 ⟨"New", ""⟩).2.2.2 rfl⟩


/-- The calls of `UpdatePost` once the lookup succeeded for the owner: the
lookup, then `Update` of the overwritten post, then possibly a second lookup. -/
theorem updatePost_calls_of_owner {σ : Type} (repo : Repository σ) (s : σ)
    (id userID : Nat) (dto : UpdatePostDTO) (p : Post)
    (hfind : repo.FindByID s id = .ok p) (hown : p.UserID = userID) :
    (UpdatePost repo s id userID dto).calls
        = [Call.FindByID id, Call.Update (applyUpdate p dto)] ∨
    (UpdatePost repo s id userID dto).calls
        = [Call.FindByID id, Call.Update (applyUpdate p dto), Call.FindByID id] := by
  unfold UpdatePost
  simp only [hfind, hown, ne_eq, not_true_eq_false, if_false]
  rcases hu : repo.Update s (applyUpdate p dto) with ⟨s1, _ | err⟩
  · right
    cases hf : repo.FindByID s1 id <;> simp [hf]
  · left
    simp

/-- Every `Update` call of `UpdatePost` writes the overwritten fetched post. -/
theorem updatePost_update_call {σ : Type} (repo : Repository σ) (s : σ)
    (id userID : Nat) (dto : UpdatePostDTO) (q : Post)
    (hq : Call.Update q ∈ (UpdatePost repo s id userID dto).calls) :
    ∃ p : Post, repo.FindByID s id = .ok p ∧ p.UserID = userID ∧ q = applyUpdate p dto := by
  cases hf : repo.FindByID s id with
  | error err =>
    unfold UpdatePost at hq
    rw [hf] at hq
    by_cases he : err = GoError.ErrRecordNotFound <;> simp [he] at hq
  | ok p =>
    by_cases hu : p.UserID = userID
    · refine ⟨p, rfl, hu, ?_⟩
      rcases updatePost_calls_of_owner repo s id userID dto p hf hu with h | h <;>
        · rw [h] at hq
          simpa using hq
    · unfold UpdatePost at hq
      rw [hf] at hq
      simp [hu] at hq

/-- The title and content of the overwritten post. -/
theorem applyUpdate_fields (p : Post) (dto : UpdatePostDTO) :
    (applyUpdate p dto).Title = (if dto.Title ≠ "" then dto.Title else p.Title) ∧
    (applyUpdate p dto).Content = (if dto.Content ≠ "" then dto.Content else p.Content) ∧
    (applyUpdate p dto).ID = p.ID ∧ (applyUpdate p dto).UserID = p.UserID := by
  unfold applyUpdate
  by_cases ht : dto.Title = "" <;> by_cases hc : dto.Content = "" <;> simp [ht, hc]

/-- The post `CreatePost` builds from the DTO and the requester. -/
theorem createPost_outcome {σ : Type} (repo : Repository σ) (s : σ) (userID : Nat)
    (dto : CreatePostDTO) :
    (CreatePost repo s userID dto).store
      = (repo.Create s (Post.mk 0 dto.Title dto.Content userID
          (user.User.mk 0 "" "" "" "" 0 0) 0 0)).1 ∧
    (CreatePost repo s userID dto).calls.head?
      = some (Call.Create (Post.mk 0 dto.Title dto.Content userID
          (user.User.mk 0 "" "" "" "" 0 0) 0 0)) ∧
    (∀ post : Post, Call.Create post ∈ (CreatePost repo s userID dto).calls →
      post = Post.mk 0 dto.Title dto.Content userID (user.User.mk 0 "" "" "" "" 0 0) 0 0) ∧
    (∀ (s1 : σ) (post1 : Post) (err : GoError),
      repo.Create s (Post.mk 0 dto.Title dto.Content userID
          (user.User.mk 0 "" "" "" "" 0 0) 0 0) = (s1, post1, some err) →
      (CreatePost repo s userID dto).result = .error (apperror.DatabaseError (some err))) ∧
    (∀ (s1 : σ) (post1 created : Post),
      repo.Create s (Post.mk 0 dto.Title dto.Content userID
          (user.User.mk 0 "" "" "" "" 0 0) 0 0) = (s1, post1, none) →
      repo.FindByID s1 post1.ID = .ok created →
      (CreatePost repo s userID dto).result = .ok created.ToResponse) := by
  unfold CreatePost
  simp only
  rcases hc : repo.Create s (Post.mk 0 dto.Title dto.Content userID
      (user.User.mk 0 "" "" "" "" 0 0) 0 0) with ⟨s1, post1, _ | err⟩
  · simp only []
    cases hf : repo.FindByID s1 post1.ID with
    | error e =>
      simp only []
      refine ⟨trivial, rfl, ?_, ?_, ?_⟩
      · intro post hpost
        simpa using hpost
      · intro s2 post2 err2 h2
        cases h2
      · intro s2 post2 created h2 hf2
        cases h2
        rw [hf] at hf2
        cases hf2
    | ok created0 =>
      simp only []
      refine ⟨trivial, rfl, ?_, ?_, ?_⟩
      · intro post hpost
        simpa using hpost
      · intro s2 post2 err2 h2
        cases h2
      · intro s2 post2 created h2 hf2
        cases h2
        rw [hf] at hf2
        cases hf2
        rfl
  · simp only []
    refine ⟨trivial, rfl, ?_, ?_, ?_⟩
    · intro post hpost
      simpa using hpost
    · intro s2 post2 err2 h2
      cases h2
      rfl
    · intro s2 post2 created h2 hf2
      cases h2

/-- For the owner, `UpdatePost` invokes `repo.Update` on the overwritten post:
the store it leaves is the one `Update` returned, and its result is the error
of `Update` or what the second lookup gives. -/
theorem updatePost_outcome_of_owner {σ : Type} (repo : Repository σ) (s : σ)
    (id userID : Nat) (dto : UpdatePostDTO) (p : Post)
    (hfind : repo.FindByID s id = .ok p) (hown : p.UserID = userID) :
    (UpdatePost repo s id userID dto).store = (repo.Update s (applyUpdate p dto)).1 ∧
    (∀ err : GoError, (repo.Update s (applyUpdate p dto)).2 = some err →
      (UpdatePost repo s id userID dto).result
        = .error (apperror.DatabaseError (some err))) ∧
    ((repo.Update s (applyUpdate p dto)).2 = none →
      (∀ updated : Post,
        repo.FindByID (repo.Update s (applyUpdate p dto)).1 id = .ok updated →
        (UpdatePost repo s id userID dto).result = .ok updated.ToResponse) ∧
      (∀ err : GoError,
        repo.FindByID (repo.Update s (applyUpdate p dto)).1 id = .error err →
        (UpdatePost repo s id userID dto).result
          = .error (apperror.DatabaseError (some err)))) := by
  unfold UpdatePost
  simp only [hfind, hown, ne_eq, not_true_eq_false, if_false]
  rcases hu : repo.Update s (applyUpdate p dto) with ⟨s1, _ | err⟩
  · simp only []
    cases hf : repo.FindByID s1 id with
    | error e =>
      simp only []
      refine ⟨trivial, ?_, ?_⟩
      · intro err h
        simp at h
      · intro _
        refine ⟨fun updated h => ?_, fun err h => ?_⟩
        · simp at h
        · simp at h
          rw [h]
    | ok u0 =>
      simp only []
      refine ⟨trivial, ?_, ?_⟩
      · intro err h
        simp at h
      · intro _
        refine ⟨fun updated h => ?_, fun err h => ?_⟩
        · simp at h
          rw [h]
        · simp at h
  · simp only []
    refine ⟨trivial, ?_, ?_⟩
    · intro err2 h
      simp at h
      rw [h]
    · intro h
      simp at h

/-- A successful `UpdatePost` went through a lookup that found a post of the
requester and an `Update` that returned no error. -/
theorem updatePost_ok {σ : Type} (repo : Repository σ) (s : σ) (id userID : Nat)
    (dto : UpdatePostDTO) (r : PostResponse)
    (hr : (UpdatePost repo s id userID dto).result = .ok r) :
    ∃ p : Post, repo.FindByID s id = .ok p ∧ p.UserID = userID ∧
      (repo.Update s (applyUpdate p dto)).2 = none := by
  cases hf : repo.FindByID s id with
  | error err =>
    unfold UpdatePost at hr
    rw [hf] at hr
    by_cases he : err = GoError.ErrRecordNotFound <;> simp [he] at hr
  | ok p =>
    by_cases hu : p.UserID = userID
    · refine ⟨p, rfl, hu, ?_⟩
      cases hup : (repo.Update s (applyUpdate p dto)).2 with
      | none => rfl
      | some err =>
        rw [(updatePost_outcome_of_owner repo s id userID dto p hf hu).2.1 err hup] at hr
        cases hr
    · unfold UpdatePost at hr
      rw [hf] at hr
      simp [hu] at hr

/-- C9: `CreatePost` invokes `repo.Create` on a post whose `UserID` is the
requesting user id, with the title and content of the DTO: it is the first
repository call, the store `CreatePost` leaves is the store this `Create`
returned, an error of `Create` is returned as a database error, and after a
successful `Create` the result is the projection of the post the lookup of
the created id returns.  On the in-memory repository the store afterwards
holds a post with that owner, title and content.  For the owner of a fetched
post `UpdatePost` invokes `repo.Update` on a post with the `ID` and `UserID` of
the fetched post, and the store it leaves is the one this `Update` returned;
a successful `UpdatePost` always went through such an `Update`; every post
handed to `repo.Update` has the `ID` and `UserID` of the fetched post. -/
theorem post_owner_set_at_creation_and_kept {σ : Type} (repo : Repository σ) (s : σ)
    (id userID : Nat) (cdto : CreatePostDTO) (udto : UpdatePostDTO) :
    (∃ post : Post, (CreatePost repo s userID cdto).calls.head? = some (Call.Create post) ∧
      post.UserID = userID ∧ post.Title = cdto.Title ∧ post.Content = cdto.Content ∧
      (CreatePost repo s userID cdto).store = (repo.Create s post).1 ∧
      (∀ (s1 : σ) (post1 : Post) (err : GoError), repo.Create s post = (s1, post1, some err) →
        (CreatePost repo s userID cdto).result
          = .error (apperror.DatabaseError (some err))) ∧
      (∀ (s1 : σ) (post1 created : Post), repo.Create s post = (s1, post1, none) →
        repo.FindByID s1 post1.ID = .ok created →
        (CreatePost repo s userID cdto).result = .ok created.ToResponse)) ∧
    (∀ post : Post, Call.Create post ∈ (CreatePost repo s userID cdto).calls →
      post.UserID = userID) ∧
    (∀ ms : List Post, ∃ stored ∈ (CreatePost memRepository ms userID cdto).store,
      stored.UserID = userID ∧ stored.Title = cdto.Title ∧ stored.Content = cdto.Content) ∧
    (∀ q : Post, Call.Update q ∈ (UpdatePost repo s id userID udto).calls →
      ∃ p : Post, repo.FindByID s id = .ok p ∧ q.ID = p.ID ∧ q.UserID = p.UserID) ∧
    (∀ p : Post, repo.FindByID s id = .ok p → p.UserID = userID →
      ∃ q : Post, q.ID = p.ID ∧ q.UserID = p.UserID ∧
        (UpdatePost repo s id userID udto).calls.take 2 = [Call.FindByID id, Call.Update q] ∧
        (UpdatePost repo s id userID udto).store = (repo.Update s q).1) ∧
    (∀ r : PostResponse, (UpdatePost repo s id userID udto).result = .ok r →
      ∃ p q : Post, repo.FindByID s id = .ok p ∧ p.UserID = userID ∧
        q.ID = p.ID ∧ q.UserID = p.UserID ∧ (repo.Update s q).2 = none ∧
        (UpdatePost repo s id userID udto).store = (repo.Update s q).1) := by
  have hc := createPost_outcome repo s userID cdto
  refine ⟨?_, ?_, ?_, ?_, ?_, ?_⟩
  · exact ⟨_, hc.2.1, rfl, rfl, rfl, hc.1, hc.2.2.2.1, hc.2.2.2.2⟩
  · intro post hpost
    rw [hc.2.2.1 post hpost]
  · intro ms
    refine ⟨{ (Post.mk 0 cdto.Title cdto.Content userID (user.User.mk 0 "" "" "" "" 0 0) 0 0)
      with ID := (ms.map (·.ID)).foldl max 0 + 1 }, ?_, rfl, rfl, rfl⟩
    rw [(createPost_outcome memRepository ms userID cdto).1]
    simp [memRepository]
  · intro q hq
    obtain ⟨p, hp, -, rfl⟩ := updatePost_update_call repo s id userID udto q hq
    exact ⟨p, hp, (applyUpdate_fields p udto).2.2.1, (applyUpdate_fields p udto).2.2.2⟩
  · intro p hf hown
    refine ⟨applyUpdate p udto, (applyUpdate_fields p udto).2.2.1,
      (applyUpdate_fields p udto).2.2.2, ?_,
      (updatePost_outcome_of_owner repo s id userID udto p hf hown).1⟩
    rcases updatePost_calls_of_owner repo s id userID udto p hf hown with h | h <;>
      simp [h]
  · intro r hr
    obtain ⟨p, hf, hown, hup⟩ := updatePost_ok repo s id userID udto r hr
    exact ⟨p, applyUpdate p udto, hf, hown, (applyUpdate_fields p udto).2.2.1,
      (applyUpdate_fields p udto).2.2.2, hup,
      (updatePost_outcome_of_owner repo s id userID udto p hf hown).1⟩

/-- Witness for C9: on the in-memory repository subject 7 creates a post, which
is stored with owner 7; and the owner (subject 5) updates the sample post: the
post written keeps id 1 and owner 5 and the store holds it afterwards. -/
theorem post_owner_set_at_creation_and_kept_witness :
    (∃ stored ∈ (CreatePost memRepository [samplePost] 7 ⟨"Title", "Content body"⟩).store,
      stored.UserID = 7 ∧ stored.Title = "Title" ∧ stored.Content = "Content body") ∧
    (∃ q : Post, q.ID = samplePost.ID ∧ q.UserID = samplePost.UserID ∧
      (UpdatePost memRepository [samplePost] 1 5 ⟨"New", ""⟩).calls.take 2
        = [Call.FindByID 1, Call.Update q] ∧
      (UpdatePost memRepository [samplePost] 1 5 ⟨"New", ""⟩).store
        = (memRepository.Update [samplePost] q).1) :=
  ⟨(post_owner_set_at_creation_and_kept memRepository [samplePost] 1 7
      ⟨"Title", "Content body"⟩ ⟨"New", ""⟩).2.2.1 [samplePost],
   (post_owner_set_at_creation_and_kept memRepository [samplePost] 1 5
      ⟨"Title", "Content body"⟩ ⟨"New", ""⟩).2.2.2.2.1 samplePost rfl rfl⟩

end PostService

/-! ## Theorems: Login -/

section Login

open user

/-- C10: `Login` returns the one error value `InvalidCredentials`, which is
`{credentials, "The provided credentials are invalid"}`, both when the lookup
by email fails (with any error) and when the user exists and the password does
not verify; in both cases the whole outcome (result, store, repository calls)
is the same, and the result of `Login` is never `UserNotFound`. -/
theorem login_uniform_invalid_credentials {σ : Type} (repo : Repository σ)
    (jwtService : auth.JWTService) (bc : Bcrypt) (s : σ) (dto : LoginDTO) :
    apperror.InvalidCredentials
      = [{ Field := "credentials", Message := "The provided credentials are invalid" }] ∧
    (∀ err : GoError, repo.FindByEmail s dto.Email = .error err →
      (Login repo jwtService bc s dto).result = .error apperror.InvalidCredentials ∧
      (Login repo jwtService bc s dto).store = s ∧
      (Login repo jwtService bc s dto).calls = [Call.FindByEmail dto.Email]) ∧
    (∀ u : User, repo.FindByEmail s dto.Email = .ok u →
      u.CheckPassword bc dto.Password = false →
      (Login repo jwtService bc s dto).result = .error apperror.InvalidCredentials ∧
      (Login repo jwtService bc s dto).store = s ∧
      (Login repo jwtService bc s dto).calls = [Call.FindByEmail dto.Email]) ∧
    (Login repo jwtService bc s dto).result ≠ .error apperror.UserNotFound := by
  refine ⟨rfl, ?_, ?_, ?_⟩
  · intro err h
    simp [Login, h]
  · intro u h hc
    simp [Login, h, hc]
  · unfold Login
    cases hf : repo.FindByEmail s dto.Email with
    | error err => simp [apperror.InvalidCredentials, apperror.UserNotFound,
        apperror.NewErrors, apperror.NewError]
    | ok u =>
      simp only
      by_cases hc : u.CheckPassword bc dto.Password = true
      · simp only [hc, Bool.not_true, Bool.false_eq_true, if_false]
        cases hg : jwtService.GenerateToken u.ID u.Email u.Role <;>
          simp [apperror.DatabaseError, apperror.UserNotFound,
            apperror.NewErrors, apperror.NewError]
      · simp [hc, apperror.InvalidCredentials, apperror.UserNotFound,
          apperror.NewErrors, apperror.NewError]

/-- Witness for C10: with one stored user, a login with an unknown email and a
login with the known email and a wrong password give the same outcome. -/
theorem login_uniform_invalid_credentials_witness :
    (Login memRepository toyJWT toyBcrypt [{ post.sampleUser with Password := "$3$secret1" }]
        ⟨"nobody@x.com", "secret1"⟩).result = .error apperror.InvalidCredentials ∧
    (Login memRepository toyJWT toyBcrypt [{ post.sampleUser with Password := "$3$secret1" }]
        ⟨"john@x.com", "wrong"⟩).result = .error apperror.InvalidCredentials :=
  ⟨((login_uniform_invalid_credentials memRepository toyJWT toyBcrypt
      [{ post.sampleUser with Password := "$3$secret1" }] ⟨"nobody@x.com", "secret1"⟩).2.1
      GoError.ErrRecordNotFound rfl).1,
   ((login_uniform_invalid_credentials memRepository toyJWT toyBcrypt
      [{ post.sampleUser with Password := "$3$secret1" }] ⟨"john@x.com", "wrong"⟩).2.2.1
      { post.sampleUser with Password := "$3$secret1" } rfl (by decide)).1⟩

end Login

/-! ## Lemmas: splitting the Authorization header -/

section Split

open strings

theorem splitChars_ne_nil (sep : Char) (l : List Char) : splitChars sep l ≠ [] := by
  cases l with
  | nil => simp [splitChars]
  | cons ch rest =>
    unfold splitChars
    by_cases h : ch = sep
    · simp [h]
    · simp only [h, if_false]
      split <;> simp

theorem splitChars_cons_ne (sep ch : Char) (rest : List Char) (h : ch ≠ sep) :
    ∃ part parts, splitChars sep rest = part :: parts ∧
      splitChars sep (ch :: rest) = (ch :: part) :: parts := by
  cases hs : splitChars sep rest with
  | nil => exact absurd hs (splitChars_ne_nil sep rest)
  | cons part parts =>
    refine ⟨part, parts, rfl, ?_⟩
    conv_lhs => unfold splitChars
    simp [h, hs]

/-- A list without the separator is one part. -/
theorem splitChars_of_not_mem (sep : Char) (l : List Char) (h : sep ∉ l) :
    splitChars sep l = [l] := by
  induction l with
  | nil => simp [splitChars]
  | cons ch rest ih =>
    have hne : ch ≠ sep := fun e => h (by simp [e])
    have hrest : sep ∉ rest := fun e => h (by simp [e])
    obtain ⟨part, parts, h1, h2⟩ := splitChars_cons_ne sep ch rest hne
    rw [ih hrest] at h1
    cases h1
    exact h2

/-- The first part ends at the first separator. -/
theorem splitChars_append_sep (sep : Char) (a b : List Char) (h : sep ∉ a) :
    splitChars sep (a ++ sep :: b) = a :: splitChars sep b := by
  induction a with
  | nil =>
    show splitChars sep (sep :: b) = [] :: splitChars sep b
    conv_lhs => unfold splitChars
    simp
  | cons ch rest ih =>
    have hne : ch ≠ sep := fun e => h (by simp [e])
    have hrest : sep ∉ rest := fun e => h (by simp [e])
    obtain ⟨part, parts, h1, h2⟩ := splitChars_cons_ne sep ch (rest ++ sep :: b) hne
    rw [ih hrest] at h1
    cases h1
    exact h2

/-- Every list is either free of the separator or a separator-free part, the
separator, and a remainder. -/
theorem splitChars_cases (sep : Char) (l : List Char) :
    sep ∉ l ∨ ∃ a b, l = a ++ sep :: b ∧ sep ∉ a := by
  induction l with
  | nil => left; simp
  | cons ch rest ih =>
    by_cases hc : ch = sep
    · right
      exact ⟨[], rest, by simp [hc], by simp⟩
    · rcases ih with h | ⟨a, b, h1, h2⟩
      · left
        intro hm
        rcases List.mem_cons.1 hm with e | e
        · exact hc e.symm
        · exact h e
      · right
        refine ⟨ch :: a, b, by simp [h1], ?_⟩
        intro hm
        rcases List.mem_cons.1 hm with e | e
        · exact hc e.symm
        · exact h2 e

/-- Exactly two parts: one separator, between the two parts. -/
theorem splitChars_eq_pair (sep : Char) (l x y : List Char)
    (h : splitChars sep l = [x, y]) : l = x ++ sep :: y ∧ sep ∉ x ∧ sep ∉ y := by
  rcases splitChars_cases sep l with hl | ⟨a, b, rfl, ha⟩
  · rw [splitChars_of_not_mem sep l hl] at h
    simp at h
  · rw [splitChars_append_sep sep a b ha] at h
    have hx : a = x := by simpa using (List.cons.inj h).1
    have hb : splitChars sep b = [y] := (List.cons.inj h).2
    subst hx
    rcases splitChars_cases sep b with hb1 | ⟨a1, b1, rfl, ha1⟩
    · rw [splitChars_of_not_mem sep b hb1] at hb
      have : b = y := by simpa using hb
      subst this
      exact ⟨rfl, ha, hb1⟩
    · rw [splitChars_append_sep sep a1 b1 ha1] at hb
      have := (List.cons.inj hb).2
      exact absurd this (splitChars_ne_nil sep b1)

/-- A header of the accepted shape splits into the scheme and the token. -/
theorem split_bearerOf (token : String) (h : ' ' ∉ token.data) :
    Split (middleware.bearerOf token) ' ' = ["Bearer", token] := by
  have hd : (middleware.bearerOf token).data = "Bearer".data ++ ' ' :: token.data := by
    simp [middleware.bearerOf, String.data_append]
  unfold Split
  rw [hd, splitChars_append_sep ' ' "Bearer".data token.data (by decide),
    splitChars_of_not_mem ' ' token.data h]
  rfl

/-- A header that splits into two parts, the first being `Bearer`, has the
accepted shape, and the second part is the token. -/
theorem bearerOf_of_split (header : String) (hlen : (Split header ' ').length = 2)
    (h0 : (Split header ' ').getD 0 "" = "Bearer") :
    ∃ token : String, ' ' ∉ token.data ∧ header = middleware.bearerOf token ∧
      (Split header ' ').getD 1 "" = token := by
  unfold Split at hlen h0 ⊢
  rcases hs : splitChars ' ' header.data with _ | ⟨x, _ | ⟨y, _ | ⟨z, r⟩⟩⟩
  · exact absurd hs (splitChars_ne_nil _ _)
  · rw [hs] at hlen
    simp at hlen
  · rw [hs] at h0
    obtain ⟨h1, -, h3⟩ := splitChars_eq_pair ' ' header.data x y hs
    have hx : x = "Bearer".data := by
      have : String.mk x = "Bearer" := by simpa using h0
      exact congrArg String.data this
    subst hx
    refine ⟨⟨y⟩, h3, ?_, by simp⟩
    apply String.ext
    rw [h1]
    simp [middleware.bearerOf, String.data_append]
  · rw [hs] at hlen
    simp at hlen

end Split

/-! ## Lemmas: the key-value bag and the paths of AuthMiddleware -/

section Middleware

open middleware

theorem lookup_filter_ne (k k1 : String) (l : List (String × gin.Value)) (h : k1 ≠ k) :
    List.lookup k1 (l.filter (fun kv => kv.1 ≠ k)) = List.lookup k1 l := by
  induction l with
  | nil => rfl
  | cons kv rest ih =>
    obtain ⟨a, v⟩ := kv
    by_cases ha : a = k
    · have hk : (k1 == a) = false := by simp [ha, h]
      have hf : List.filter (fun kv : String × gin.Value => decide (kv.1 ≠ k)) ((a, v) :: rest)
          = List.filter (fun kv => decide (kv.1 ≠ k)) rest :=
        List.filter_cons_of_neg (by simp [ha])
      rw [hf, ih, List.lookup_cons, hk]
    · have hf : List.filter (fun kv : String × gin.Value => decide (kv.1 ≠ k)) ((a, v) :: rest)
          = (a, v) :: List.filter (fun kv => decide (kv.1 ≠ k)) rest :=
        List.filter_cons_of_pos (by simp [ha])
      rw [hf, List.lookup_cons, List.lookup_cons, ih]

theorem get_set_same (c : gin.Context) (k : String) (v : gin.Value) :
    (c.Set k v).Get k = some v := by
  simp [gin.Context.Set, gin.Context.Get, List.lookup]

theorem get_set_ne (c : gin.Context) (k k1 : String) (v : gin.Value) (h : k1 ≠ k) :
    (c.Set k v).Get k1 = c.Get k1 := by
  have hk : (k1 == k) = false := by simp [h]
  simp only [gin.Context.Set, gin.Context.Get, List.lookup, hk]
  exact lookup_filter_ne k k1 c.Keys h

theorem bearerOf_ne_empty (token : String) : bearerOf token ≠ "" := by
  intro h
  have := congrArg String.length h
  simp [bearerOf, String.length_append] at this
  have h7 : "Bearer ".length = 7 := by decide
  omega

/-- A header of the accepted shape reaches `ValidateToken` with the token, and
the outcome is decided by the validation result alone. -/
theorem authMiddleware_bearer (jwtService : auth.JWTService)
    (next : gin.Context → Option gin.Context) (c : gin.Context) (token : String)
    (hsp : ' ' ∉ token.data) (hh : c.GetHeader "Authorization" = bearerOf token) :
    AuthMiddleware jwtService next c =
      match jwtService.ValidateToken token with
      | .error _ =>
        some (response.Error { c with validated := c.validated ++ [token] } 401 "Unauthorized"
          [{ Field := "token", Message := "Invalid or expired token" }]).Abort
      | .ok claims =>
        next ((({ c with validated := c.validated ++ [token] }.Set "user_id"
          (.uint claims.UserID)).Set "user_email" (.str claims.Email)).Set "user_role"
          (.str claims.Role)) := by
  unfold AuthMiddleware
  simp only [hh, bearerOf_ne_empty, if_false, split_bearerOf token hsp]
  simp only [List.length_cons, List.length_nil, ne_eq, List.getD_cons_zero,
    List.getD_cons_succ, not_true_eq_false, or_self, if_false]
  cases jwtService.ValidateToken token <;> rfl

/-- A non-empty header that is not of the accepted shape is answered with the
malformed-format response. -/
theorem authMiddleware_not_bearer (jwtService : auth.JWTService)
    (next : gin.Context → Option gin.Context) (c : gin.Context)
    (hne : c.GetHeader "Authorization" ≠ "")
    (hshape : ¬ ∃ token : String, ' ' ∉ token.data ∧
      c.GetHeader "Authorization" = bearerOf token) :
    AuthMiddleware jwtService next c =
      some (response.Error c 401 "Unauthorized"
        [{ Field := "authorization",
           Message := "Invalid authorization format. Use: Bearer <token>" }]).Abort := by
  unfold AuthMiddleware
  simp only [hne, if_false]
  by_cases hc : (strings.Split (c.GetHeader "Authorization") ' ').length ≠ 2 ∨
      (strings.Split (c.GetHeader "Authorization") ' ').getD 0 "" ≠ "Bearer"
  · simp only [hc, if_true]
    rfl
  · exfalso
    push_neg at hc
    obtain ⟨token, h1, h2, -⟩ := bearerOf_of_split _ hc.1 hc.2
    exact hshape ⟨token, h1, h2⟩

/-- The empty or absent header is answered with the missing-header response. -/
theorem authMiddleware_empty (jwtService : auth.JWTService)
    (next : gin.Context → Option gin.Context) (c : gin.Context)
    (h : c.GetHeader "Authorization" = "") :
    AuthMiddleware jwtService next c =
      some (response.Error c 401 "Unauthorized"
        [{ Field := "authorization", Message := "Authorization header is required" }]).Abort := by
  unfold AuthMiddleware
  simp only [h, if_true]
  rfl

theorem roleAllowed_iff (role : String) (allowedRoles : List String) :
    roleAllowed role allowedRoles = true ↔ role ∈ allowedRoles := by
  induction allowedRoles with
  | nil => simp [roleAllowed]
  | cons a rest ih =>
    unfold roleAllowed
    by_cases h : role = a
    · simp [h]
    · simp [h, ih]

/-- The principal keys of the context that `AuthMiddleware` hands on. -/
theorem principal_keys (c : gin.Context) (claims : auth.Claims) :
    let c1 := ((c.Set "user_id" (.uint claims.UserID)).Set "user_email"
      (.str claims.Email)).Set "user_role" (.str claims.Role)
    c1.Get "user_id" = some (.uint claims.UserID) ∧
    c1.Get "user_email" = some (.str claims.Email) ∧
    c1.Get "user_role" = some (.str claims.Role) ∧
    (∀ k : String, k ≠ "user_id" → k ≠ "user_email" → k ≠ "user_role" →
      c1.Get k = c.Get k) ∧
    c1.aborted = c.aborted ∧ c1.written = c.written ∧ c1.Header = c.Header ∧
    c1.validated = c.validated := by
  refine ⟨?_, ?_, ?_, ?_, rfl, rfl, rfl, rfl⟩
  · rw [get_set_ne _ _ _ _ (by decide), get_set_ne _ _ _ _ (by decide), get_set_same]
  · rw [get_set_ne _ _ _ _ (by decide), get_set_same]
  · rw [get_set_same]
  · intro k h1 h2 h3
    rw [get_set_ne _ _ _ _ h3, get_set_ne _ _ _ _ h2, get_set_ne _ _ _ _ h1]

/-- Without a header of the accepted shape whose token validates, the outcome
of `AuthMiddleware` is an aborted 401 context with the key-value bag
unchanged, whatever the next handler is. -/
theorem authMiddleware_rejects (jwtService : auth.JWTService) (c : gin.Context)
    (hno : ¬ ∃ (token : String) (claims : auth.Claims), ' ' ∉ token.data ∧
        c.GetHeader "Authorization" = bearerOf token ∧
        jwtService.ValidateToken token = .ok claims) :
    ∃ r : gin.Context,
      (∀ next1 : gin.Context → Option gin.Context,
        AuthMiddleware jwtService next1 c = some r) ∧
      r.aborted = true ∧ r.Keys = c.Keys ∧
      r.written.map Prod.fst = c.written.map Prod.fst ++ [401] := by
  by_cases hempty : c.GetHeader "Authorization" = ""
  · exact ⟨_, fun next1 => authMiddleware_empty jwtService next1 c hempty, rfl, rfl,
      by simp [response.Error, gin.Context.JSON, gin.Context.Abort]⟩
  · by_cases hshape : ∃ token : String, ' ' ∉ token.data ∧
        c.GetHeader "Authorization" = bearerOf token
    · obtain ⟨token, hsp, hh⟩ := hshape
      cases hv : jwtService.ValidateToken token with
      | ok claims => exact absurd ⟨token, claims, hsp, hh, hv⟩ hno
      | error err =>
        refine ⟨(response.Error { c with validated := c.validated ++ [token] } 401
          "Unauthorized" [{ Field := "token", Message := "Invalid or expired token" }]).Abort,
          fun next1 => ?_, ?_, ?_, ?_⟩
        · rw [authMiddleware_bearer jwtService next1 c token hsp hh, hv]
        · rfl
        · rfl
        · simp [response.Error, gin.Context.JSON, gin.Context.Abort]
    · exact ⟨_, fun next1 => authMiddleware_not_bearer jwtService next1 c hempty hshape,
        rfl, rfl, by simp [response.Error, gin.Context.JSON, gin.Context.Abort]⟩

/-- A bound role that is in the list lets the request through. -/
theorem roleMiddleware_allowed (allowedRoles : List String)
    (next : gin.Context → Option gin.Context) (c : gin.Context) (r : String)
    (h : c.Get "user_role" = some (.str r)) (hm : r ∈ allowedRoles) :
    RoleMiddleware allowedRoles next c = next c := by
  have ha : roleAllowed r allowedRoles = true := (roleAllowed_iff r allowedRoles).2 hm
  simp [RoleMiddleware, h, ha]

/-- A bound role that is not in the list is answered with 403. -/
theorem roleMiddleware_denied (allowedRoles : List String)
    (next : gin.Context → Option gin.Context) (c : gin.Context) (r : String)
    (h : c.Get "user_role" = some (.str r)) (hm : r ∉ allowedRoles) :
    RoleMiddleware allowedRoles next c =
      some (response.Error c 403 "Forbidden"
        [apperror.NewError "permission"
          "You don\x27t have permission to access this resource"]).Abort := by
  have ha : roleAllowed r allowedRoles = false := by
    cases hr : roleAllowed r allowedRoles with
    | false => rfl
    | true => exact absurd ((roleAllowed_iff r allowedRoles).1 hr) hm
  simp [RoleMiddleware, h, ha]
  rfl

/-! ## Theorems: AuthMiddleware -/

/-- C2: when the Authorization header is absent or empty, `AuthMiddleware`
aborts with one 401 response whose body has success false and the error entry
`{authorization, "Authorization header is required"}`; nothing is handed to
`ValidateToken`, the key-value bag is unchanged (no principal key is set), and
the outcome is the same whatever the token service and the next handler are, so
neither is consulted. -/
theorem authMiddleware_missing_header (jwtService : auth.JWTService)
    (next : gin.Context → Option gin.Context) (c : gin.Context)
    (h : c.Header.lookup "Authorization" = none ∨
      c.Header.lookup "Authorization" = some "") :
    ∃ r : gin.Context,
      AuthMiddleware jwtService next c = some r ∧
      r.aborted = true ∧
      r.written = c.written ++ [(401,
        { Success := false, Message := "Unauthorized", Data := none,
          Error := some [{ Field := "authorization",
                           Message := "Authorization header is required" }] })] ∧
      r.validated = c.validated ∧
      r.Keys = c.Keys ∧
      (∀ (jwt1 : auth.JWTService) (next1 : gin.Context → Option gin.Context),
        AuthMiddleware jwt1 next1 c = some r) := by
  have hh : c.GetHeader "Authorization" = "" := by
    rcases h with h | h <;> simp [gin.Context.GetHeader, h]
  refine ⟨_, authMiddleware_empty jwtService next c hh, rfl, rfl, rfl, rfl, ?_⟩
  intro jwt1 next1
  exact authMiddleware_empty jwt1 next1 c hh

/-- Witness for C2: a request without any header, with a token service that
would accept tokens and a next handler that would answer 200. -/
theorem authMiddleware_missing_header_witness :
    ∃ r : gin.Context,
      AuthMiddleware user.toyJWT (fun c => some (response.Success c 200 "ok" none))
        (gin.newContext []) = some r ∧
      r.aborted = true ∧
      r.written = (gin.newContext []).written ++ [(401,
        { Success := false, Message := "Unauthorized", Data := none,
          Error := some [{ Field := "authorization",
                           Message := "Authorization header is required" }] })] ∧
      r.validated = (gin.newContext []).validated ∧
      r.Keys = (gin.newContext []).Keys ∧
      (∀ (jwt1 : auth.JWTService) (next1 : gin.Context → Option gin.Context),
        AuthMiddleware jwt1 next1 (gin.newContext []) = some r) :=
  authMiddleware_missing_header user.toyJWT (fun c => some (response.Success c 200 "ok" none))
    (gin.newContext []) (Or.inl rfl)

/-- C3, as stated, fails at the header `"Bearer "` (scheme, one space, empty
token): the header is non-empty and is not the scheme, a space and a non-empty
token, yet the request is not answered as malformed; the empty string is
handed to `ValidateToken` and the answer is the invalid-token response. -/
theorem authMiddleware_empty_token_not_malformed :
    (gin.newContext [("Authorization", "Bearer ")]).GetHeader "Authorization" ≠ "" ∧
    (¬ ∃ token : String, token ≠ "" ∧ ' ' ∉ token.data ∧
      (gin.newContext [("Authorization", "Bearer ")]).GetHeader "Authorization"
        = bearerOf token) ∧
    AuthMiddleware user.toyJWT (fun c => some c) (gin.newContext [("Authorization", "Bearer ")])
      ≠ some (response.Error (gin.newContext [("Authorization", "Bearer ")]) 401 "Unauthorized"
          [{ Field := "authorization",
             Message := "Invalid authorization format. Use: Bearer <token>" }]).Abort ∧
    ∃ r : gin.Context,
      AuthMiddleware user.toyJWT (fun c => some c)
        (gin.newContext [("Authorization", "Bearer ")]) = some r ∧
      r.validated = [""] ∧
      r.written = [(401,
        { Success := false, Message := "Unauthorized", Data := none,
          Error := some [{ Field := "token", Message := "Invalid or expired token" }] })] := by
  refine ⟨by decide, ?_, by decide, ⟨_, rfl, by decide, by decide⟩⟩
  rintro ⟨token, hne, hsp, he⟩
  have h1 := split_bearerOf token hsp
  rw [← he] at h1
  have h2 : (strings.Split ((gin.newContext [("Authorization", "Bearer ")]).GetHeader
      "Authorization") ' ').getD 1 "x" = "" := by decide
  rw [h1] at h2
  exact hne (by simpa using h2)

/-- C3, amended: every non-empty Authorization header that is not the scheme
`Bearer`, one space and a token without a space (the token may be empty) is
answered with one 401 response carrying the error entry `{authorization,
"Invalid authorization format. Use: Bearer <token>"}`; the pipeline is
aborted, nothing is handed to `ValidateToken`, and the outcome does not depend
on the token service or the next handler. -/
theorem authMiddleware_malformed_header (jwtService : auth.JWTService)
    (next : gin.Context → Option gin.Context) (c : gin.Context)
    (hne : c.GetHeader "Authorization" ≠ "")
    (hshape : ¬ ∃ token : String, ' ' ∉ token.data ∧
      c.GetHeader "Authorization" = bearerOf token) :
    ∃ r : gin.Context,
      AuthMiddleware jwtService next c = some r ∧
      r.aborted = true ∧
      r.written = c.written ++ [(401,
        { Success := false, Message := "Unauthorized", Data := none,
          Error := some [{ Field := "authorization",
                           Message := "Invalid authorization format. Use: Bearer <token>" }] })] ∧
      r.validated = c.validated ∧
      r.Keys = c.Keys ∧
      (∀ (jwt1 : auth.JWTService) (next1 : gin.Context → Option gin.Context),
        AuthMiddleware jwt1 next1 c = some r) :=
  ⟨_, authMiddleware_not_bearer jwtService next c hne hshape, rfl, rfl, rfl, rfl,
    fun jwt1 next1 => authMiddleware_not_bearer jwt1 next1 c hne hshape⟩

/-- Witness for C3 amended: the headers `"Basic xyz"` and `"Bearer"` (no
token) are answered as malformed, with nothing handed to `ValidateToken`. -/
theorem authMiddleware_malformed_header_witness :
    (∃ r : gin.Context,
      AuthMiddleware user.toyJWT (fun c => some c)
        (gin.newContext [("Authorization", "Basic xyz")]) = some r ∧
      r.aborted = true ∧
      r.written = [(401,
        { Success := false, Message := "Unauthorized", Data := none,
          Error := some [{ Field := "authorization",
                           Message := "Invalid authorization format. Use: Bearer <token>" }] })] ∧
      r.validated = []) ∧
    (∃ r : gin.Context,
      AuthMiddleware user.toyJWT (fun c => some c)
        (gin.newContext [("Authorization", "Bearer")]) = some r ∧
      r.aborted = true ∧
      r.written = [(401,
        { Success := false, Message := "Unauthorized", Data := none,
          Error := some [{ Field := "authorization",
                           Message := "Invalid authorization format. Use: Bearer <token>" }] })] ∧
      r.validated = []) := by
  constructor
  · obtain ⟨r, h1, h2, h3, h4, -⟩ :=
      authMiddleware_malformed_header user.toyJWT (fun c => some c)
        (gin.newContext [("Authorization", "Basic xyz")]) (by decide)
        (by
          rintro ⟨token, hsp, he⟩
          have h1 := split_bearerOf token hsp
          rw [← he] at h1
          have h2 : (strings.Split ((gin.newContext
              [("Authorization", "Basic xyz")]).GetHeader "Authorization") ' ').getD 0 ""
              = "Basic" := by decide
          rw [h1] at h2
          simp at h2)
    exact ⟨r, h1, h2, h3, h4⟩
  · obtain ⟨r, h1, h2, h3, h4, -⟩ :=
      authMiddleware_malformed_header user.toyJWT (fun c => some c)
        (gin.newContext [("Authorization", "Bearer")]) (by decide)
        (by
          rintro ⟨token, hsp, he⟩
          have h1 := split_bearerOf token hsp
          rw [← he] at h1
          have h2 : (strings.Split ((gin.newContext
              [("Authorization", "Bearer")]).GetHeader "Authorization") ' ').length
              = 1 := by decide
          rw [h1] at h2
          simp at h2)
    exact ⟨r, h1, h2, h3, h4⟩

/-- C4: for a header of the accepted shape whose token validates with claims
`claims`, `AuthMiddleware` runs the next handler on the context in which
`user_id`, `user_email` and `user_role` hold exactly `claims.UserID`,
`claims.Email` and `claims.Role`, every other key, the abort flag and the
responses written being as before.  Conversely, when the header is not of that
shape with a token that validates, the outcome is an aborted context with a
401 response and the key-value bag unchanged, the same for every next handler:
the next handler does not run and no principal is bound. -/
theorem authMiddleware_binds_principal (jwtService : auth.JWTService)
    (next : gin.Context → Option gin.Context) (c : gin.Context) :
    (∀ (token : String) (claims : auth.Claims), ' ' ∉ token.data →
      c.GetHeader "Authorization" = bearerOf token →
      jwtService.ValidateToken token = .ok claims →
      ∃ c1 : gin.Context,
        AuthMiddleware jwtService next c = next c1 ∧
        c1.Get "user_id" = some (.uint claims.UserID) ∧
        c1.Get "user_email" = some (.str claims.Email) ∧
        c1.Get "user_role" = some (.str claims.Role) ∧
        (∀ k : String, k ≠ "user_id" → k ≠ "user_email" → k ≠ "user_role" →
          c1.Get k = c.Get k) ∧
        c1.aborted = c.aborted ∧ c1.written = c.written ∧ c1.Header = c.Header ∧
        c1.validated = c.validated ++ [token]) ∧
    ((¬ ∃ (token : String) (claims : auth.Claims), ' ' ∉ token.data ∧
        c.GetHeader "Authorization" = bearerOf token ∧
        jwtService.ValidateToken token = .ok claims) →
      ∃ r : gin.Context,
        (∀ next1 : gin.Context → Option gin.Context,
          AuthMiddleware jwtService next1 c = some r) ∧
        r.aborted = true ∧ r.Keys = c.Keys ∧
        r.written.map Prod.fst = c.written.map Prod.fst ++ [401]) := by
  constructor
  · intro token claims hsp hh hv
    have hk := principal_keys { c with validated := c.validated ++ [token] } claims
    refine ⟨_, ?_, hk⟩
    rw [authMiddleware_bearer jwtService next c token hsp hh, hv]
  · intro hno
    exact authMiddleware_rejects jwtService c hno

/-- Witness for C4: the header `"Bearer tok-user"` with the toy token service,
which validates that token as subject 5 with role `user`. -/
theorem authMiddleware_binds_principal_witness :
    ∃ c1 : gin.Context,
      AuthMiddleware user.toyJWT (fun c => some c)
        (gin.newContext [("Authorization", "Bearer tok-user")]) = some c1 ∧
      c1.Get "user_id" = some (.uint 5) ∧
      c1.Get "user_email" = some (.str "john@x.com") ∧
      c1.Get "user_role" = some (.str "user") := by
  obtain ⟨c1, h1, h2, h3, h4, -⟩ :=
    (authMiddleware_binds_principal user.toyJWT (fun c => some c)
      (gin.newContext [("Authorization", "Bearer tok-user")])).1 "tok-user"
      { UserID := 5, Email := "john@x.com", Role := "user" } (by decide) (by decide) rfl
  exact ⟨c1, h1, h2, h3, h4⟩

/-- C5: on headers of the accepted shape, whenever `ValidateToken` fails the
outcome of `AuthMiddleware` is the same whatever the error is: for any two
token services that reject the token with any two errors the outcomes are
equal, namely the aborted context with one 401 response whose message is
`Unauthorized` and whose error list is `{token, "Invalid or expired token"}`. -/
theorem authMiddleware_uniform_token_failure (jwt1 jwt2 : auth.JWTService)
    (next1 next2 : gin.Context → Option gin.Context) (c : gin.Context) (token : String)
    (err1 err2 : GoError) (hsp : ' ' ∉ token.data)
    (hh : c.GetHeader "Authorization" = bearerOf token)
    (h1 : jwt1.ValidateToken token = .error err1)
    (h2 : jwt2.ValidateToken token = .error err2) :
    AuthMiddleware jwt1 next1 c = AuthMiddleware jwt2 next2 c ∧
    ∃ r : gin.Context,
      AuthMiddleware jwt1 next1 c = some r ∧
      r.aborted = true ∧
      r.written = c.written ++ [(401,
        { Success := false, Message := "Unauthorized", Data := none,
          Error := some [{ Field := "token", Message := "Invalid or expired token" }] })] := by
  rw [authMiddleware_bearer jwt1 next1 c token hsp hh, h1,
    authMiddleware_bearer jwt2 next2 c token hsp hh, h2]
  exact ⟨rfl, _, rfl, rfl, rfl⟩

/-- Witness for C5: the token `forged` is rejected as malformed by the toy token
service and as expired by a service that rejects every token; the outcomes of
`AuthMiddleware` are equal. -/
theorem authMiddleware_uniform_token_failure_witness :
    AuthMiddleware user.toyJWT (fun c => some c)
        (gin.newContext [("Authorization", "Bearer forged")])
      = AuthMiddleware
          { GenerateToken := fun _ _ _ => .ok "t",
            ValidateToken := fun _ => .error (GoError.other "token is expired") }
          (fun c => some c) (gin.newContext [("Authorization", "Bearer forged")]) :=
  (authMiddleware_uniform_token_failure user.toyJWT
    { GenerateToken := fun _ _ _ => .ok "t",
      ValidateToken := fun _ => .error (GoError.other "token is expired") }
    (fun c => some c) (fun c => some c) (gin.newContext [("Authorization", "Bearer forged")])
    "forged" (GoError.other "token is malformed") (GoError.other "token is expired")
    (by decide) (by decide) rfl rfl).1

/-! ## Theorems: RoleMiddleware and the admin chain -/

/-- C6: when the context binds `user_role` to the string `r`, `RoleMiddleware`
of `internal/middleware` runs the next handler on the unchanged context if `r`
is equal to some element of `allowedRoles`, and otherwise aborts with one 403
`Forbidden` response, the same for every next handler.  Membership is equality
of strings: there is no hierarchy between roles. -/
theorem roleMiddleware_exact_match (allowedRoles : List String)
    (next : gin.Context → Option gin.Context) (c : gin.Context) (r : String)
    (h : c.Get "user_role" = some (.str r)) :
    (r ∈ allowedRoles → RoleMiddleware allowedRoles next c = next c) ∧
    (r ∉ allowedRoles →
      ∃ res : gin.Context,
        (∀ next1 : gin.Context → Option gin.Context,
          RoleMiddleware allowedRoles next1 c = some res) ∧
        res.aborted = true ∧
        res.written = c.written ++ [(403,
          { Success := false, Message := "Forbidden", Data := none,
            Error := some [{ Field := "permission",
                             Message :=
                               "You don\x27t have permission to access this resource" }] })]) := by
  constructor
  · intro hm
    exact roleMiddleware_allowed allowedRoles next c r h hm
  · intro hm
    exact ⟨_, fun next1 => roleMiddleware_denied allowedRoles next1 c r h hm, rfl, rfl⟩

/-- Witness for C6: role `user` against `["admin"]` is denied, `admin` against
`["admin"]` is allowed, `admin` against `["user"]` is denied, and
`["admin", "user"]` allows both. -/
theorem roleMiddleware_exact_match_witness :
    (∃ res : gin.Context,
      RoleMiddleware ["admin"] (fun c => some c)
        ((gin.newContext []).Set "user_role" (.str "user")) = some res ∧
      res.aborted = true) ∧
    RoleMiddleware ["admin"] (fun c => some c)
        ((gin.newContext []).Set "user_role" (.str "admin"))
      = some ((gin.newContext []).Set "user_role" (.str "admin")) ∧
    (∃ res : gin.Context,
      RoleMiddleware ["user"] (fun c => some c)
        ((gin.newContext []).Set "user_role" (.str "admin")) = some res ∧
      res.aborted = true) ∧
    RoleMiddleware ["admin", "user"] (fun c => some c)
        ((gin.newContext []).Set "user_role" (.str "admin"))
      = some ((gin.newContext []).Set "user_role" (.str "admin")) ∧
    RoleMiddleware ["admin", "user"] (fun c => some c)
        ((gin.newContext []).Set "user_role" (.str "user"))
      = some ((gin.newContext []).Set "user_role" (.str "user")) := by
  refine ⟨?_, ?_, ?_, ?_, ?_⟩
  · obtain ⟨res, h1, h2, -⟩ :=
      (roleMiddleware_exact_match ["admin"] (fun c => some c)
        ((gin.newContext []).Set "user_role" (.str "user")) "user" rfl).2 (by decide)
    exact ⟨res, h1 _, h2⟩
  · exact (roleMiddleware_exact_match ["admin"] (fun c => some c)
      ((gin.newContext []).Set "user_role" (.str "admin")) "admin" rfl).1 (by decide)
  · obtain ⟨res, h1, h2, -⟩ :=
      (roleMiddleware_exact_match ["user"] (fun c => some c)
        ((gin.newContext []).Set "user_role" (.str "admin")) "admin" rfl).2 (by decide)
    exact ⟨res, h1 _, h2⟩
  · exact (roleMiddleware_exact_match ["admin", "user"] (fun c => some c)
      ((gin.newContext []).Set "user_role" (.str "admin")) "admin" rfl).1 (by decide)
  · exact (roleMiddleware_exact_match ["admin", "user"] (fun c => some c)
      ((gin.newContext []).Set "user_role" (.str "user")) "user" rfl).1 (by decide)

/-- C7: in the chain `AuthMiddleware`, `RoleMiddleware("admin")`, handler, the
handler runs, on the context carrying the principal, when the header has the
accepted shape and its token validates with role `admin`; in every other case
the outcome is an aborted context with a 401 or 403 response, the same for
every handler, so the handler does not run.  The chain panics only if the
handler itself does: the type assertion on `user_role` never fails on a context
that `AuthMiddleware` hands on. -/
theorem adminChain_runs_handler_iff_admin (jwtService : auth.JWTService)
    (handler : gin.Context → Option gin.Context) (c : gin.Context) :
    (∀ (token : String) (claims : auth.Claims), ' ' ∉ token.data →
      c.GetHeader "Authorization" = bearerOf token →
      jwtService.ValidateToken token = .ok claims → claims.Role = "admin" →
      ∃ c1 : gin.Context,
        adminChain jwtService handler c = handler c1 ∧
        c1.Get "user_id" = some (.uint claims.UserID) ∧
        c1.Get "user_email" = some (.str claims.Email) ∧
        c1.Get "user_role" = some (.str "admin") ∧
        c1.aborted = c.aborted ∧ c1.written = c.written) ∧
    ((¬ ∃ (token : String) (claims : auth.Claims), ' ' ∉ token.data ∧
        c.GetHeader "Authorization" = bearerOf token ∧
        jwtService.ValidateToken token = .ok claims ∧ claims.Role = "admin") →
      ∃ r : gin.Context,
        (∀ handler1 : gin.Context → Option gin.Context,
          adminChain jwtService handler1 c = some r) ∧
        r.aborted = true ∧
        (r.written.map Prod.fst = c.written.map Prod.fst ++ [401] ∨
         r.written.map Prod.fst = c.written.map Prod.fst ++ [403])) ∧
    (adminChain jwtService handler c = none → ∃ c1 : gin.Context, handler c1 = none) := by
  have key : ∀ (token : String) (claims : auth.Claims), ' ' ∉ token.data →
      c.GetHeader "Authorization" = bearerOf token →
      jwtService.ValidateToken token = .ok claims →
      ∀ handler1 : gin.Context → Option gin.Context,
      ∃ c1 : gin.Context,
        adminChain jwtService handler1 c = RoleMiddleware ["admin"] handler1 c1 ∧
        c1.Get "user_id" = some (.uint claims.UserID) ∧
        c1.Get "user_email" = some (.str claims.Email) ∧
        c1.Get "user_role" = some (.str claims.Role) ∧
        c1.aborted = c.aborted ∧ c1.written = c.written ∧
        c1 = (({ c with validated := c.validated ++ [token] }.Set "user_id"
          (.uint claims.UserID)).Set "user_email" (.str claims.Email)).Set "user_role"
          (.str claims.Role) := by
    intro token claims hsp hh hv handler1
    have hk := principal_keys { c with validated := c.validated ++ [token] } claims
    refine ⟨_, ?_, hk.1, hk.2.1, hk.2.2.1, hk.2.2.2.2.1, hk.2.2.2.2.2.1, rfl⟩
    unfold adminChain
    rw [authMiddleware_bearer jwtService _ c token hsp hh, hv]
  refine ⟨?_, ?_, ?_⟩
  · intro token claims hsp hh hv hrole
    obtain ⟨c1, h1, h2, h3, h4, h5, h6, -⟩ := key token claims hsp hh hv handler
    rw [hrole] at h4
    refine ⟨c1, ?_, h2, h3, h4, h5, h6⟩
    rw [h1]
    exact roleMiddleware_allowed ["admin"] handler c1 "admin" h4 (by simp)
  · intro hno
    by_cases hauth : ∃ (token : String) (claims : auth.Claims), ' ' ∉ token.data ∧
        c.GetHeader "Authorization" = bearerOf token ∧
        jwtService.ValidateToken token = .ok claims
    · obtain ⟨token, claims, hsp, hh, hv⟩ := hauth
      have hrole : claims.Role ∉ ["admin"] := by
        intro hm
        exact hno ⟨token, claims, hsp, hh, hv, by simpa using hm⟩
      obtain ⟨c0, -, -, -, h4, -, h6, hc0⟩ := key token claims hsp hh hv handler
      refine ⟨(response.Error c0 403 "Forbidden"
        [apperror.NewError "permission"
          "You don\x27t have permission to access this resource"]).Abort,
        fun handler1 => ?_, rfl, Or.inr ?_⟩
      · obtain ⟨c1, h1, -, -, -, -, -, hc1⟩ := key token claims hsp hh hv handler1
        rw [h1, hc1, ← hc0]
        exact roleMiddleware_denied ["admin"] handler1 c0 claims.Role h4 hrole
      · simp [response.Error, gin.Context.JSON, gin.Context.Abort, h6]
    · obtain ⟨r, hr, hab, -, hw⟩ := authMiddleware_rejects jwtService c hauth
      exact ⟨r, fun handler1 => hr _, hab, Or.inl hw⟩
  · intro hnone
    by_cases hauth : ∃ (token : String) (claims : auth.Claims), ' ' ∉ token.data ∧
        c.GetHeader "Authorization" = bearerOf token ∧
        jwtService.ValidateToken token = .ok claims
    · obtain ⟨token, claims, hsp, hh, hv⟩ := hauth
      obtain ⟨c1, h1, -, -, h4, -, -, -⟩ := key token claims hsp hh hv handler
      by_cases hm : claims.Role ∈ ["admin"]
      · rw [h1, roleMiddleware_allowed ["admin"] handler c1 claims.Role h4 hm] at hnone
        exact ⟨c1, hnone⟩
      · rw [h1, roleMiddleware_denied ["admin"] handler c1 claims.Role h4 hm] at hnone
        exact absurd hnone (by simp)
    · obtain ⟨r, hr, -, -, -⟩ := authMiddleware_rejects jwtService c hauth
      have : adminChain jwtService handler c = some r := hr _
      rw [this] at hnone
      exact absurd hnone (by simp)

/-- Witness for C7: with the toy token service, the header `"Bearer tok-admin"`
reaches the handler with role `admin` bound. -/
theorem adminChain_runs_handler_iff_admin_witness :
    ∃ c1 : gin.Context,
      adminChain user.toyJWT (fun c => some (response.Success c 200 "ok" none))
          (gin.newContext [("Authorization", "Bearer tok-admin")])
        = some (response.Success c1 200 "ok" none) ∧
      c1.Get "user_role" = some (.str "admin") := by
  obtain ⟨c1, h1, -, -, h4, -⟩ :=
    (adminChain_runs_handler_iff_admin user.toyJWT
      (fun c => some (response.Success c 200 "ok" none))
      (gin.newContext [("Authorization", "Bearer tok-admin")])).1 "tok-admin"
      { UserID := 1, Email := "root@x.com", Role := "admin" } (by decide) (by decide) rfl rfl
  exact ⟨c1, h1, h4⟩

end Middleware

/-! ## Lemmas: the user service -/

section UserService

open user

/-- The user `Register` builds from the DTO before hashing. -/
theorem register_outcome {σ : Type} (repo : Repository σ) (bc : Bcrypt) (salt : Nat) (s : σ)
    (dto : RegisterDTO) (hfree : repo.EmailExists s dto.Email = false) :
    (∀ err : GoError,
      bc.GenerateFromPassword salt dto.Password bcrypt.DefaultCost = .error err →
      (Register repo bc salt s dto).result = .error (apperror.DatabaseError (some err)) ∧
      (Register repo bc salt s dto).store = s ∧
      (Register repo bc salt s dto).calls = [Call.EmailExists dto.Email]) ∧
    (∀ h : String,
      bc.GenerateFromPassword salt dto.Password bcrypt.DefaultCost = .ok h →
      (Register repo bc salt s dto).calls =
        [Call.EmailExists dto.Email,
         Call.Create { ID := 0, Name := dto.Name, Email := dto.Email, Password := h,
                       Role := "user", CreatedAt := 0, UpdatedAt := 0 }] ∧
      (Register repo bc salt s dto).store =
        (repo.Create s { ID := 0, Name := dto.Name, Email := dto.Email, Password := h,
                         Role := "user", CreatedAt := 0, UpdatedAt := 0 }).1 ∧
      (∀ (s1 : σ) (u1 : User),
        repo.Create s { ID := 0, Name := dto.Name, Email := dto.Email, Password := h,
                        Role := "user", CreatedAt := 0, UpdatedAt := 0 } = (s1, u1, none) →
        (Register repo bc salt s dto).result = .ok u1.ToResponse)) := by
  constructor
  · intro err herr
    simp [Register, hfree, User.HashPassword, herr]
  · intro h hh
    unfold Register
    simp only [hfree, Bool.false_eq_true, if_false, User.HashPassword, hh]
    rcases hc : repo.Create s (User.mk 0 dto.Name dto.Email h "user" 0 0) with
      ⟨s1, u1, _ | err⟩
    · refine ⟨rfl, rfl, ?_⟩
      intro s2 u2 h2
      cases h2
      rfl
    · refine ⟨rfl, rfl, ?_⟩
      intro s2 u2 h2
      cases h2

/-- The paths of `ChangePassword` once the user is found. -/
theorem changePassword_outcome {σ : Type} (repo : Repository σ) (bc : Bcrypt) (salt : Nat)
    (s : σ) (id : Nat) (dto : ChangePasswordDTO) (u : User)
    (hfind : repo.FindByID s id = .ok u) :
    (u.CheckPassword bc dto.OldPassword = false →
      (ChangePassword repo bc salt s id dto).result = some apperror.OldPasswordIncorrect ∧
      (ChangePassword repo bc salt s id dto).store = s ∧
      (ChangePassword repo bc salt s id dto).calls = [Call.FindByID id]) ∧
    (u.CheckPassword bc dto.OldPassword = true →
      (∀ err : GoError,
        bc.GenerateFromPassword salt dto.NewPassword bcrypt.DefaultCost = .error err →
        (ChangePassword repo bc salt s id dto).result
          = some (apperror.DatabaseError (some err)) ∧
        (ChangePassword repo bc salt s id dto).store = s ∧
        (ChangePassword repo bc salt s id dto).calls = [Call.FindByID id]) ∧
      (∀ h : String,
        bc.GenerateFromPassword salt dto.NewPassword bcrypt.DefaultCost = .ok h →
        (ChangePassword repo bc salt s id dto).calls
          = [Call.FindByID id, Call.Update { u with Password := h }] ∧
        (ChangePassword repo bc salt s id dto).store
          = (repo.Update s { u with Password := h }).1 ∧
        (∀ (s1 : σ) (u1 : User), repo.Update s { u with Password := h } = (s1, u1, none) →
          (ChangePassword repo bc salt s id dto).result = none))) := by
  refine ⟨?_, ?_⟩
  · intro hc
    simp [ChangePassword, hfind, hc]
  · intro hc
    refine ⟨?_, ?_⟩
    · intro err herr
      simp [ChangePassword, hfind, hc, User.HashPassword, herr]
    · intro h hh
      unfold ChangePassword
      simp only [hfind, hc, Bool.not_true, Bool.false_eq_true, if_false, User.HashPassword, hh]
      rcases hup : repo.Update s { u with Password := h } with ⟨s1, u1, _ | err⟩
      · refine ⟨rfl, rfl, ?_⟩
        intro s2 u2 h2
        rfl
      · refine ⟨rfl, rfl, ?_⟩
        intro s2 u2 h2
        cases h2

/-- C12: when `EmailExists` reports the email of the DTO as present, `Register`
returns `EmailAlreadyExists`, which is `{email, "The email has already been
taken"}`; the only repository call is `EmailExists`, so `Create` is not
called, and the store is unchanged. -/
theorem register_email_taken {σ : Type} (repo : Repository σ) (bc : Bcrypt) (salt : Nat)
    (s : σ) (dto : RegisterDTO) (h : repo.EmailExists s dto.Email = true) :
    (Register repo bc salt s dto).result = .error apperror.EmailAlreadyExists ∧
    apperror.EmailAlreadyExists
      = [{ Field := "email", Message := "The email has already been taken" }] ∧
    (Register repo bc salt s dto).calls = [Call.EmailExists dto.Email] ∧
    (∀ u : User, Call.Create u ∉ (Register repo bc salt s dto).calls) ∧
    (Register repo bc salt s dto).store = s := by
  simp [Register, h]
  rfl

/-- Witness for C12: registering again with the email of the stored user. -/
theorem register_email_taken_witness :
    (Register memRepository toyBcrypt 3 [storedJohn]
        ⟨"Johnny", "john@x.com", "secret2", "secret2"⟩).result
      = .error apperror.EmailAlreadyExists ∧
    (Register memRepository toyBcrypt 3 [storedJohn]
        ⟨"Johnny", "john@x.com", "secret2", "secret2"⟩).store = [storedJohn] :=
  ⟨(register_email_taken memRepository toyBcrypt 3 [storedJohn]
      ⟨"Johnny", "john@x.com", "secret2", "secret2"⟩ (by decide)).1,
   (register_email_taken memRepository toyBcrypt 3 [storedJohn]
      ⟨"Johnny", "john@x.com", "secret2", "secret2"⟩ (by decide)).2.2.2.2⟩

/-- C13: when the email is not taken and hashing the password of the DTO gives
`h`, a hash that verifies that password, `Register` calls `repo.Create` with a
user that has the name and email of the DTO, role `user` and the password
field `h` (the hash, not the password of the DTO), and `CheckPassword` of the
DTO password succeeds on it.  When `Create` succeeds the result is the
projection of the created user: its id, name, email, role and timestamps; it
is the same whatever the password field holds. -/
theorem register_stores_hash {σ : Type} (repo : Repository σ) (bc : Bcrypt) (salt : Nat)
    (s : σ) (dto : RegisterDTO) (h : String)
    (hfree : repo.EmailExists s dto.Email = false)
    (hhash : bc.GenerateFromPassword salt dto.Password bcrypt.DefaultCost = .ok h)
    (hverify : bc.CompareHashAndPassword h dto.Password = none) :
    ∃ u : User,
      (Register repo bc salt s dto).calls = [Call.EmailExists dto.Email, Call.Create u] ∧
      u.Name = dto.Name ∧ u.Email = dto.Email ∧ u.Role = "user" ∧ u.Password = h ∧
      u.CheckPassword bc dto.Password = true ∧
      (∀ (s1 : σ) (u1 : User), repo.Create s u = (s1, u1, none) →
        (Register repo bc salt s dto).result
          = .ok { ID := u1.ID, Name := u1.Name, Email := u1.Email, Role := u1.Role,
                  CreatedAt := u1.CreatedAt, UpdatedAt := u1.UpdatedAt } ∧
        (Register repo bc salt s dto).store = s1 ∧
        (∀ pw : String, ({ u1 with Password := pw } : User).ToResponse = u1.ToResponse)) := by
  obtain ⟨h1, h2, h3⟩ := (register_outcome repo bc salt s dto hfree).2 h hhash
  refine ⟨_, h1, rfl, rfl, rfl, rfl, ?_, ?_⟩
  · simp [User.CheckPassword, hverify]
  · intro s1 u1 hc
    refine ⟨h3 s1 u1 hc, ?_, fun pw => rfl⟩
    rw [h2, hc]

/-- Witness for C13: registering John on the empty store with the toy hash
under salt 3. -/
theorem register_stores_hash_witness :
    ∃ u : User,
      (Register memRepository toyBcrypt 3 []
          ⟨"John", "john@x.com", "secret1", "secret1"⟩).calls
        = [Call.EmailExists "john@x.com", Call.Create u] ∧
      u.Password = "$3$secret1" ∧ u.CheckPassword toyBcrypt "secret1" = true := by
  obtain ⟨u, h1, -, -, -, h5, h6, -⟩ :=
    register_stores_hash memRepository toyBcrypt 3 []
      ⟨"John", "john@x.com", "secret1", "secret1"⟩ "$3$secret1" (by decide) rfl
      (by decide)
  exact ⟨u, h1, h5, h6⟩

/-- C14, as stated, fails when the old password verifies and the new password
has 73 bytes: with the length limit of the library hashing fails, and
`ChangePassword` returns a database error after the lookup alone; nothing is
persisted and the store is unchanged. -/
theorem changePassword_long_password_not_persisted :
    storedJohn.CheckPassword boundedBcrypt "secret1" = true ∧
    (String.mk (List.replicate 73 'a')).utf8ByteSize = 73 ∧
    (ChangePassword memRepository boundedBcrypt 4 [storedJohn] 5
        ⟨"secret1", String.mk (List.replicate 73 'a'),
          String.mk (List.replicate 73 'a')⟩).result
      = some (apperror.DatabaseError
          (some (GoError.other "bcrypt: password length exceeds 72 bytes"))) ∧
    (ChangePassword memRepository boundedBcrypt 4 [storedJohn] 5
        ⟨"secret1", String.mk (List.replicate 73 'a'),
          String.mk (List.replicate 73 'a')⟩).calls = [Call.FindByID 5] ∧
    (ChangePassword memRepository boundedBcrypt 4 [storedJohn] 5
        ⟨"secret1", String.mk (List.replicate 73 'a'),
          String.mk (List.replicate 73 'a')⟩).store = [storedJohn] := by
  refine ⟨by decide, by decide, rfl, rfl, rfl⟩

/-- C14, amended: for an existing user, when the old password does not verify
against the stored hash `ChangePassword` returns `OldPasswordIncorrect`, its
only repository call is the lookup and the store is unchanged.  When it
verifies and hashing the new password gives the fresh hash `h`, the operation
invokes `repo.Update` on the fetched user in which only the password field is
replaced, by `h`: this is its second and last repository call, the store it
leaves is the one `Update` returned, and it returns no error when `Update`
succeeds.  When it verifies and hashing fails, the hashing error is returned
as a database error, `repo.Update` is not called and the store is
unchanged. -/
theorem changePassword_old_password_gate {σ : Type} (repo : Repository σ) (bc : Bcrypt)
    (salt : Nat) (s : σ) (id : Nat) (dto : ChangePasswordDTO) (u : User)
    (hfind : repo.FindByID s id = .ok u) :
    (u.CheckPassword bc dto.OldPassword = false →
      (ChangePassword repo bc salt s id dto).result = some apperror.OldPasswordIncorrect ∧
      (ChangePassword repo bc salt s id dto).calls = [Call.FindByID id] ∧
      (∀ q : User, Call.Update q ∉ (ChangePassword repo bc salt s id dto).calls) ∧
      (ChangePassword repo bc salt s id dto).store = s) ∧
    (u.CheckPassword bc dto.OldPassword = true →
      (∀ h : String,
        bc.GenerateFromPassword salt dto.NewPassword bcrypt.DefaultCost = .ok h →
        (ChangePassword repo bc salt s id dto).calls
          = [Call.FindByID id, Call.Update { u with Password := h }] ∧
        (ChangePassword repo bc salt s id dto).store
          = (repo.Update s { u with Password := h }).1 ∧
        (∀ (s1 : σ) (u1 : User), repo.Update s { u with Password := h } = (s1, u1, none) →
          (ChangePassword repo bc salt s id dto).result = none ∧
          (ChangePassword repo bc salt s id dto).store = s1)) ∧
      (∀ err : GoError,
        bc.GenerateFromPassword salt dto.NewPassword bcrypt.DefaultCost = .error err →
        (ChangePassword repo bc salt s id dto).result
          = some (apperror.DatabaseError (some err)) ∧
        (ChangePassword repo bc salt s id dto).calls = [Call.FindByID id] ∧
        (∀ q : User, Call.Update q ∉ (ChangePassword repo bc salt s id dto).calls) ∧
        (ChangePassword repo bc salt s id dto).store = s)) := by
  have hout := changePassword_outcome repo bc salt s id dto u hfind
  refine ⟨?_, ?_⟩
  · intro hc
    obtain ⟨h1, h2, h3⟩ := hout.1 hc
    refine ⟨h1, h3, ?_, h2⟩
    intro q hq
    rw [h3] at hq
    simp at hq
  · intro hc
    refine ⟨?_, ?_⟩
    · intro h hh
      obtain ⟨h1, h2, h3⟩ := (hout.2 hc).2 h hh
      refine ⟨h1, h2, ?_⟩
      intro s1 u1 hup
      refine ⟨h3 s1 u1 hup, ?_⟩
      rw [h2, hup]
    · intro err herr
      obtain ⟨h1, h2, h3⟩ := (hout.2 hc).1 err herr
      refine ⟨h1, h3, ?_, h2⟩
      intro q hq
      rw [h3] at hq
      simp at hq

/-- Witness for C14 amended: the stored user (hash of `secret1`) changes the
password with a wrong old password, and with the right one. -/
theorem changePassword_old_password_gate_witness :
    (ChangePassword memRepository toyBcrypt 4 [storedJohn] 5
        ⟨"wrong", "secret2", "secret2"⟩).result = some apperror.OldPasswordIncorrect ∧
    (ChangePassword memRepository toyBcrypt 4 [storedJohn] 5
        ⟨"secret1", "secret2", "secret2"⟩).calls
      = [Call.FindByID 5, Call.Update { storedJohn with Password := "$4$secret2" }] ∧
    (ChangePassword memRepository toyBcrypt 4 [storedJohn] 5
        ⟨"secret1", "secret2", "secret2"⟩).store
      = [{ storedJohn with Password := "$4$secret2" }] :=
  ⟨((changePassword_old_password_gate memRepository toyBcrypt 4 [storedJohn] 5
      ⟨"wrong", "secret2", "secret2"⟩ storedJohn rfl).1 (by decide)).1,
   (((changePassword_old_password_gate memRepository toyBcrypt 4 [storedJohn] 5
      ⟨"secret1", "secret2", "secret2"⟩ storedJohn rfl).2 (by decide)).1
      "$4$secret2" rfl).1,
   ((((changePassword_old_password_gate memRepository toyBcrypt 4 [storedJohn] 5
      ⟨"secret1", "secret2", "secret2"⟩ storedJohn rfl).2 (by decide)).1
      "$4$secret2" rfl).2.1).trans (by decide)⟩

/-- The toy hash verifies the password it was made from, and so does the
hash with the length limit. -/
theorem boundedBcrypt_verifies (salt : Nat) (p : String) (cost : Nat) (h : String)
    (hh : boundedBcrypt.GenerateFromPassword salt p cost = .ok h) :
    boundedBcrypt.CompareHashAndPassword h p = none := by
  unfold boundedBcrypt at hh
  simp only at hh
  split at hh
  · cases hh
  · simp only [toyBcrypt] at hh
    cases hh
    simp only [boundedBcrypt, toyBcrypt]
    have hs : ("$" ++ p).data.isSuffixOf ("$" ++ toString salt ++ "$" ++ p).data = true := by
      rw [List.isSuffixOf_iff_suffix]
      refine ⟨("$" ++ toString salt).data, ?_⟩
      simp [String.data_append]
    rw [if_pos hs]

/-- C15, as stated, fails for a password of 73 bytes: with the length limit of
the library, `HashPassword` returns the error of `GenerateFromPassword` and
does not succeed. -/
theorem hashPassword_rejects_long_password :
    (String.mk (List.replicate 73 'a')).utf8ByteSize = 73 ∧
    User.HashPassword boundedBcrypt 1
        { storedJohn with Password := String.mk (List.replicate 73 'a') }
      = .error (GoError.other "bcrypt: password length exceeds 72 bytes") :=
  ⟨by decide, rfl⟩

/-- C15, amended: for a bcrypt whose hashes verify the password they were made
from, `HashPassword` on a user with password `p` succeeds exactly when
`GenerateFromPassword` does on `p`; it then leaves the hash in the password
field, every other field as before, and `CheckPassword(p)` on the user returns
true.  When `GenerateFromPassword` fails, `HashPassword` returns its error. -/
theorem hashPassword_then_checkPassword (bc : Bcrypt)
    (hlaw : ∀ (salt : Nat) (p : String) (cost : Nat) (h : String),
      bc.GenerateFromPassword salt p cost = .ok h → bc.CompareHashAndPassword h p = none)
    (salt : Nat) (u : User) :
    (∀ h : String, bc.GenerateFromPassword salt u.Password bcrypt.DefaultCost = .ok h →
      u.HashPassword bc salt = .ok { u with Password := h } ∧
      ({ u with Password := h } : User).CheckPassword bc u.Password = true) ∧
    (∀ err : GoError, bc.GenerateFromPassword salt u.Password bcrypt.DefaultCost = .error err →
      u.HashPassword bc salt = .error err) := by
  constructor
  · intro h hh
    refine ⟨by simp [User.HashPassword, hh], ?_⟩
    simp [User.CheckPassword, hlaw salt u.Password bcrypt.DefaultCost h hh]
  · intro err herr
    simp [User.HashPassword, herr]

/-- Witness for C15 amended: hashing `secret1` under salt 7 with the bounded
hash, then checking `secret1`. -/
theorem hashPassword_then_checkPassword_witness :
    User.HashPassword boundedBcrypt 7 { storedJohn with Password := "secret1" }
      = .ok { storedJohn with Password := "$7$secret1" } ∧
    ({ storedJohn with Password := "$7$secret1" } : User).CheckPassword boundedBcrypt
      "secret1" = true :=
  (hashPassword_then_checkPassword boundedBcrypt boundedBcrypt_verifies 7
    { storedJohn with Password := "secret1" }).1 "$7$secret1" rfl

end UserService

/-! ## Theorems: the credential service -/

section Credential

open auth

/-- C16: when signing succeeds, `GenerateToken` at time `t0` returns a token
on which `ValidateToken` returns exactly the three claims at every time before
the encoded expiry `t0 + expireHours * 3600`, and fails with `Expired` at every
time at or after it, that is once the configured duration has elapsed. -/
theorem generateToken_validateToken (svc : jwtService) (t0 : Int) (userID : Nat)
    (email role : String) (sig : Nat)
    (hsign : svc.sign svc.secretKey { UserID := userID, Email := email, Role := role } t0
      (t0 + svc.expireHours * 3600) = .ok sig) :
    ∃ token : Token,
      GenerateToken svc t0 userID email role = .ok token ∧
      ∀ t : Int,
        (t < t0 + svc.expireHours * 3600 →
          ValidateToken svc t token
            = .ok { UserID := userID, Email := email, Role := role }) ∧
        (t0 + svc.expireHours * 3600 ≤ t →
          ValidateToken svc t token = .error ValidateError.Expired) := by
  refine ⟨Token.signed { UserID := userID, Email := email, Role := role } t0
    (t0 + svc.expireHours * 3600) sig, ?_, ?_⟩
  · simp [GenerateToken, hsign]
  · intro t
    constructor
    · intro ht
      simp [ValidateToken, hsign, not_le.2 ht]
    · intro ht
      simp [ValidateToken, hsign, ht]

/-- Witness for C16: the sample service with 24 hours issues at time 1000; the
token validates one second before the expiry 87400 and is expired at it. -/
theorem generateToken_validateToken_witness :
    ∃ token : Token,
      GenerateToken sampleService 1000 5 "john@x.com" "user" = .ok token ∧
      ValidateToken sampleService 87399 token
        = .ok { UserID := 5, Email := "john@x.com", Role := "user" } ∧
      ValidateToken sampleService 87400 token = .error ValidateError.Expired := by
  obtain ⟨token, h1, h2⟩ :=
    generateToken_validateToken sampleService 1000 5 "john@x.com" "user" 34 rfl
  exact ⟨token, h1, (h2 87399).1 (by decide), (h2 87400).2 (by decide)⟩

end Credential

/-! ## Theorems: validation errors -/

section Validation

open validator

/-- After the first rune the loop of `toSnakeCase` appends each rune, with an
underscore before it when it is an ASCII upper-case letter. -/
theorem snakeLoop_pos (i : Nat) (hi : 0 < i) (l result : List Char) :
    snakeLoop i l result
      = result ++ (l.map (fun x => if 'A' ≤ x ∧ x ≤ 'Z' then ['_', x] else [x])).flatten := by
  induction l generalizing i result with
  | nil => simp [snakeLoop]
  | cons r rest ih =>
    have hpos : 0 < i + r.utf8Size := by omega
    unfold snakeLoop
    simp only
    rw [ih (i + r.utf8Size) hpos]
    by_cases hr : 'A' ≤ r ∧ r ≤ 'Z'
    · have hc : i > 0 ∧ r ≥ 'A' ∧ r ≤ 'Z' := ⟨hi, hr.1, hr.2⟩
      simp [hc, hr]
    · have hc : ¬ (i > 0 ∧ r ≥ 'A' ∧ r ≤ 'Z') := fun h => hr ⟨h.2.1, h.2.2⟩
      simp [hc, hr]

/-- The loop of `toSnakeCase` from the start of the string. -/
theorem snakeLoop_zero (l : List Char) : snakeLoop 0 l [] = insertUnderscores l := by
  cases l with
  | nil => rfl
  | cons r rest =>
    unfold snakeLoop
    simp only [gt_iff_lt, lt_self_iff_false, false_and, if_false, Nat.zero_add, List.nil_append]
    rw [snakeLoop_pos r.utf8Size (Char.utf8Size_pos r)]
    rfl

theorem toSnakeCase_eq_words (table : Char → Char) (str : String) :
    toSnakeCase table str = snakeCaseInWords table str := by
  simp [toSnakeCase, snakeCaseInWords, strings.ToLower, snakeLoop_zero]

theorem appendErrors_eq (table : Char → Char) (errors : List ValidationError)
    (errs : List FieldError) :
    appendErrors table errors errs
      = errors ++ errs.map (fun e =>
          { Field := toSnakeCase table e.Field, Message := formatErrorMessage table e }) := by
  induction errs generalizing errors with
  | nil => simp [appendErrors]
  | cons e rest ih =>
    unfold appendErrors
    rw [ih]
    simp

/-- C17: for every list of field errors `FormatValidationErrors` returns one
entry for each, in the same order, the entry of the error `e` having the field
`toSnakeCase(e.Field())`; `toSnakeCase` is the lower-casing of the name in
which `_` was inserted before every ASCII upper-case letter that is not the
first rune.  So for every field of the six DTOs the reported field is the JSON
key of that field, several errors are returned together, and an error that is
not a `validator.ValidationErrors` gives the empty list. -/
theorem formatValidationErrors_fields (table : Char → Char) :
    (∀ errs : List FieldError,
      FormatValidationErrors table (.ValidationErrors errs)
        = errs.map (fun e =>
            { Field := toSnakeCase table e.Field, Message := formatErrorMessage table e })) ∧
    (∀ errs : List FieldError,
      (FormatValidationErrors table (.ValidationErrors errs)).length = errs.length ∧
      (FormatValidationErrors table (.ValidationErrors errs)).map (fun v => v.Field)
        = errs.map (fun e => toSnakeCase table e.Field)) ∧
    (∀ str : String, toSnakeCase table str = snakeCaseInWords table str) ∧
    (toSnakeCase table "Name" = "name" ∧
     toSnakeCase table "Email" = "email" ∧
     toSnakeCase table "Password" = "password" ∧
     toSnakeCase table "PasswordConfirm" = "password_confirm" ∧
     toSnakeCase table "OldPassword" = "old_password" ∧
     toSnakeCase table "NewPassword" = "new_password" ∧
     toSnakeCase table "NewPasswordConfirm" = "new_password_confirm" ∧
     toSnakeCase table "Title" = "title" ∧
     toSnakeCase table "Content" = "content") ∧
    (∀ err : GoError, FormatValidationErrors table (.other err) = []) := by
  have hmap : ∀ errs : List FieldError,
      FormatValidationErrors table (.ValidationErrors errs)
        = errs.map (fun e =>
            { Field := toSnakeCase table e.Field, Message := formatErrorMessage table e }) := by
    intro errs
    simp [FormatValidationErrors, appendErrors_eq]
  refine ⟨hmap, ?_, toSnakeCase_eq_words table, ?_, fun _ => rfl⟩
  · intro errs
    rw [hmap]
    constructor
    · simp
    · simp [List.map_map, Function.comp]
  · exact ⟨rfl, rfl, rfl, rfl, rfl, rfl, rfl, rfl, rfl⟩

/-- Witness for C17: the four field errors of a registration with a short name,
a bad email, a short password and a confirmation that differs are reported
together under the JSON keys of the fields. -/
theorem formatValidationErrors_fields_witness :
    FormatValidationErrors id (.ValidationErrors
        [⟨"Name", "min", "3"⟩, ⟨"Email", "email", ""⟩, ⟨"Password", "min", "6"⟩,
         ⟨"PasswordConfirm", "eqfield", "Password"⟩])
      = [⟨"name", "The name must be at least 3 characters"⟩,
         ⟨"email", "The email must be a valid email address"⟩,
         ⟨"password", "The password must be at least 6 characters"⟩,
         ⟨"password_confirm", "The password_confirm must match password"⟩] :=
  ((formatValidationErrors_fields id).1 _).trans (by decide)

end Validation

/-! ## Lemmas: strconv.Atoi -/

section Config

open config strconv

theorem le_decimalValue (n : Nat) (ds : List Char) : n ≤ decimalValue n ds := by
  induction ds generalizing n with
  | nil => exact Nat.le_refl n
  | cons c rest ih =>
    have h1 : n ≤ n * 10 + (c.toNat - '0'.toNat) := by omega
    exact Nat.le_trans h1 (ih _)

theorem allDigits_cons (c : Char) (rest : List Char) (h : allDigits (c :: rest)) :
    ('0' ≤ c ∧ c ≤ '9') ∧ allDigits rest :=
  ⟨h c (by simp), fun x hx => h x (by simp [hx])⟩

/-- A run of digits whose value stays within `maxVal` parses to its value. -/
theorem parseDigits_ok (maxVal n : Nat) (ds : List Char) (hd : allDigits ds)
    (hv : decimalValue n ds ≤ maxVal) :
    parseDigits maxVal n ds = .ok (decimalValue n ds) := by
  induction ds generalizing n with
  | nil => rfl
  | cons c rest ih =>
    obtain ⟨hc, hrest⟩ := allDigits_cons c rest hd
    have hstep : ¬ (n * 10 + (c.toNat - '0'.toNat) > maxVal) := by
      have := le_decimalValue (n * 10 + (c.toNat - '0'.toNat)) rest
      have hv1 : decimalValue (n * 10 + (c.toNat - '0'.toNat)) rest ≤ maxVal := hv
      omega
    unfold parseDigits
    simp only [hc, and_self, if_true, hstep, if_false]
    exact ih _ hrest hv

/-- A character that is not a digit, met while the value is within `maxVal`,
is a syntax error. -/
theorem parseDigits_syntax (maxVal n : Nat) (pre : List Char) (c : Char) (rest : List Char)
    (hd : allDigits pre) (hv : decimalValue n pre ≤ maxVal) (hc : ¬ ('0' ≤ c ∧ c ≤ '9')) :
    parseDigits maxVal n (pre ++ c :: rest) = .error .ErrSyntax := by
  induction pre generalizing n with
  | nil =>
    show parseDigits maxVal n (c :: rest) = _
    unfold parseDigits
    simp only [hc, if_false]
  | cons d pre1 ih =>
    obtain ⟨hdd, hrest⟩ := allDigits_cons d pre1 hd
    have hstep : ¬ (n * 10 + (d.toNat - '0'.toNat) > maxVal) := by
      have := le_decimalValue (n * 10 + (d.toNat - '0'.toNat)) pre1
      have hv1 : decimalValue (n * 10 + (d.toNat - '0'.toNat)) pre1 ≤ maxVal := hv
      omega
    show parseDigits maxVal n (d :: (pre1 ++ c :: rest)) = _
    unfold parseDigits
    simp only [hdd, and_self, if_true, hstep, if_false]
    exact ih _ hrest hv

/-- A run of digits whose value exceeds `maxVal` is a range error, whatever
follows it. -/
theorem parseDigits_range (maxVal n : Nat) (pre rest : List Char) (hd : allDigits pre)
    (hn : n ≤ maxVal) (hv : maxVal < decimalValue n pre) :
    parseDigits maxVal n (pre ++ rest) = .error .ErrRange := by
  induction pre generalizing n with
  | nil =>
    have : decimalValue n [] = n := rfl
    omega
  | cons d pre1 ih =>
    obtain ⟨hdd, hrest⟩ := allDigits_cons d pre1 hd
    show parseDigits maxVal n (d :: (pre1 ++ rest)) = _
    unfold parseDigits
    simp only [hdd, and_self, if_true]
    by_cases hstep : n * 10 + (d.toNat - '0'.toNat) > maxVal
    · simp only [hstep, if_true]
    · simp only [hstep, if_false]
      exact ih _ hrest (by omega) hv

/-- The value of `Atoi` on a sign prefix followed by a body, in terms of
`ParseUint` on the body. -/
theorem atoi_value_of_sign (sign body : List Char) (hs : isSign sign)
    (hb : sign = [] → body ≠ [] ∧ body.head? ≠ some '+' ∧ body.head? ≠ some '-') :
    (Atoi (String.mk (sign ++ body))).1 =
      match ParseUint body 64 with
      | (_, some .ErrSyntax) => 0
      | (un, _) => if inRange sign un then signedValue sign un else signBound sign := by
  have key : ∀ (neg : Bool) (r : Nat × Option NumError),
      (match r with
        | (_, some .ErrSyntax) => ((0 : Int), some NumError.ErrSyntax)
        | (un, _) =>
          if !neg ∧ un ≥ 2 ^ (64 - 1) then
            ((2 : Int) ^ (64 - 1) - 1, some NumError.ErrRange)
          else if neg ∧ un > 2 ^ (64 - 1) then
            (-(2 : Int) ^ (64 - 1), some NumError.ErrRange)
          else (if neg then -(un : Int) else (un : Int), none)).1 =
      (match r with
        | (_, some .ErrSyntax) => (0 : Int)
        | (un, _) =>
          if (if neg then un ≤ 2 ^ 63 else un < 2 ^ 63) then
            (if neg then -(un : Int) else (un : Int))
          else (if neg then -(2 : Int) ^ 63 else (2 : Int) ^ 63 - 1)) := by
    intro neg r
    rcases r with ⟨un, _ | e⟩
    · cases neg
      · simp only []
        split_ifs <;> first | rfl | (exfalso; simp at * <;> omega)
      · simp only []
        split_ifs <;> first | rfl | (exfalso; simp at * <;> omega)
    · cases e
      · rfl
      · cases neg
        · simp only []
          split_ifs <;> first | rfl | (exfalso; simp at * <;> omega)
        · simp only []
          split_ifs <;> first | rfl | (exfalso; simp at * <;> omega)
  rcases hs with rfl | rfl | rfl
  · obtain ⟨h1, h2, h3⟩ := hb rfl
    have := key false (ParseUint body 64)
    simp only [Atoi, ParseInt, IntSize, List.nil_append, h1, if_false, h2, h3, or_self,
      inRange, signedValue, signBound]
    simpa using this
  · have := key false (ParseUint body 64)
    simp only [Atoi, ParseInt, IntSize, List.singleton_append, List.head?_cons, List.tail_cons,
      inRange, signedValue, signBound]
    simpa using this
  · have := key true (ParseUint body 64)
    simp only [Atoi, ParseInt, IntSize, List.singleton_append, List.head?_cons, List.tail_cons,
      inRange, signedValue, signBound]
    simpa using this

theorem head_not_sign (ds : List Char) (hd : allDigits ds) :
    ds.head? ≠ some '+' ∧ ds.head? ≠ some '-' := by
  cases ds with
  | nil => simp
  | cons c rest =>
    have hc := (allDigits_cons c rest hd).1
    constructor
    · intro h
      have : c = '+' := by simpa using h
      subst this
      exact absurd hc.1 (by decide)
    · intro h
      have : c = '-' := by simpa using h
      subst this
      exact absurd hc.1 (by decide)

theorem inRange_lt (sign : List Char) (n : Nat) (h : inRange sign n) : n ≤ 2 ^ 64 - 1 := by
  unfold inRange at h
  split at h <;> omega

theorem not_inRange_max (sign : List Char) : ¬ inRange sign (2 ^ 64 - 1) := by
  unfold inRange
  split <;> omega

/-- A decimal integer within the range of `int` is read as its value. -/
theorem atoi_decimal (sign ds : List Char) (hs : isSign sign) (hd : allDigits ds)
    (hne : ds ≠ []) (hr : inRange sign (decimalValue 0 ds)) :
    (Atoi (String.mk (sign ++ ds))).1 = signedValue sign (decimalValue 0 ds) := by
  rw [atoi_value_of_sign sign ds hs (fun _ => ⟨hne, head_not_sign ds hd⟩)]
  have hp : ParseUint ds 64 = (decimalValue 0 ds, none) := by
    simp only [ParseUint, hne, if_false,
      parseDigits_ok (2 ^ 64 - 1) 0 ds hd (inRange_lt sign _ hr)]
  rw [hp]
  simp only [hr, if_true]

/-- Digits whose value is outside the range of `int` are read as the bound of
the range on the side of the sign. -/
theorem atoi_out_of_range (sign ds : List Char) (hs : isSign sign) (hd : allDigits ds)
    (hr : ¬ inRange sign (decimalValue 0 ds)) :
    (Atoi (String.mk (sign ++ ds))).1 = signBound sign := by
  have hne : ds ≠ [] := by
    rintro rfl
    apply hr
    unfold inRange decimalValue
    split <;> simp
  rw [atoi_value_of_sign sign ds hs (fun _ => ⟨hne, head_not_sign ds hd⟩)]
  by_cases hv : decimalValue 0 ds ≤ 2 ^ 64 - 1
  · have hp : ParseUint ds 64 = (decimalValue 0 ds, none) := by
      simp only [ParseUint, hne, if_false, parseDigits_ok (2 ^ 64 - 1) 0 ds hd hv]
    rw [hp]
    simp only [hr, if_false]
  · have hp : ParseUint ds 64 = (2 ^ 64 - 1, some .ErrRange) := by
      have := parseDigits_range (2 ^ 64 - 1) 0 ds [] hd (by omega) (by omega)
      rw [List.append_nil] at this
      simp only [ParseUint, hne, if_false, this]
    rw [hp]
    simp only [not_inRange_max sign, if_false]

/-- A run of digits whose value is `2 ^ 64` or more is read as the bound of
the range, whatever follows the run. -/
theorem atoi_overflow_prefix (sign pre rest : List Char) (hs : isSign sign)
    (hd : allDigits pre) (hv : 2 ^ 64 ≤ decimalValue 0 pre) :
    (Atoi (String.mk (sign ++ (pre ++ rest)))).1 = signBound sign := by
  have hne : pre ≠ [] := by
    rintro rfl
    have : decimalValue 0 [] = 0 := rfl
    omega
  have hne2 : pre ++ rest ≠ [] := by simp [hne]
  have hhead : (pre ++ rest).head? = pre.head? := by
    cases pre with
    | nil => exact absurd rfl hne
    | cons c r => rfl
  rw [atoi_value_of_sign sign (pre ++ rest) hs
    (fun _ => ⟨hne2, by rw [hhead]; exact head_not_sign pre hd⟩)]
  have hp : ParseUint (pre ++ rest) 64 = (2 ^ 64 - 1, some .ErrRange) := by
    have := parseDigits_range (2 ^ 64 - 1) 0 pre rest hd (by omega) (by omega)
    simp only [ParseUint, hne2, if_false, this]
  rw [hp]
  simp only [not_inRange_max sign, if_false]

/-- A character that is not a digit, met before the digits read exceed
`2 ^ 64 - 1`, makes the value `0`. -/
theorem atoi_syntax (sign pre : List Char) (c : Char) (rest : List Char) (hs : isSign sign)
    (hd : allDigits pre) (hv : decimalValue 0 pre < 2 ^ 64) (hc : ¬ ('0' ≤ c ∧ c ≤ '9'))
    (hfirst : sign = [] → pre = [] → c ≠ '+' ∧ c ≠ '-') :
    (Atoi (String.mk (sign ++ (pre ++ c :: rest)))).1 = 0 := by
  have hne2 : pre ++ c :: rest ≠ [] := by simp
  have hb : sign = [] →
      pre ++ c :: rest ≠ [] ∧ (pre ++ c :: rest).head? ≠ some '+' ∧
        (pre ++ c :: rest).head? ≠ some '-' := by
    intro hsg
    refine ⟨hne2, ?_⟩
    cases pre with
    | nil =>
      obtain ⟨h1, h2⟩ := hfirst hsg rfl
      simp [h1, h2]
    | cons d r =>
      have := head_not_sign (d :: r) hd
      simpa using this
  rw [atoi_value_of_sign sign (pre ++ c :: rest) hs hb]
  have hp : ParseUint (pre ++ c :: rest) 64 = (0, some .ErrSyntax) := by
    have := parseDigits_syntax (2 ^ 64 - 1) 0 pre c rest hd (by omega) hc
    simp only [ParseUint, hne2, if_false, this]
  rw [hp]

theorem getEnv_cases (env : Environ) (key d : String) :
    (env key = none ∨ env key = some "" → getEnv env key d = d) ∧
    (∀ v : String, env key = some v → v ≠ "" → getEnv env key d = v) := by
  constructor
  · rintro (h | h) <;> simp [getEnv, Getenv, h]
  · intro v h hv
    simp [getEnv, Getenv, h, hv]

/-! ## Theorems: LoadConfig -/

/-- C18, as stated, fails when `JWT_EXPIRE_HOURS` holds twenty digits `9`
followed by `x`: the value is not empty and is not an integer, yet
`JWTExpireHours` is the largest `int`, not `0`.  It also fails for the decimal
integer `2 ^ 63`, which is read as `2 ^ 63 - 1`.  No error is returned. -/
theorem loadConfig_range_error_not_zero :
    'x' ∈ "99999999999999999999x".data ∧
    (LoadConfig (envWithHours "99999999999999999999x")).1.JWTExpireHours
      = 9223372036854775807 ∧
    (LoadConfig (envWithHours "99999999999999999999x")).1.JWTExpireHours ≠ 0 ∧
    (LoadConfig (envWithHours "99999999999999999999x")).2 = none ∧
    (LoadConfig (envWithHours "9223372036854775808")).1.JWTExpireHours
      = 9223372036854775807 ∧
    (LoadConfig (envWithHours "9223372036854775808")).1.JWTExpireHours
      ≠ 9223372036854775808 := by
  refine ⟨by decide, by decide, by decide, rfl, by decide, by decide⟩

/-- C18, amended: `LoadConfig` never returns an error.  `JWTExpireHours` is 24
when `JWT_EXPIRE_HOURS` is unset or empty.  When it is set to a decimal
integer, an optional sign followed by digits, `JWTExpireHours` is that integer
if it is within the range of `int`, and otherwise the bound of the range on the
side of the sign; the bound is also the value when a run of digits reaches
`2 ^ 64`, whatever follows the run.  It is `0` when a character that is not a
digit is met before that, and when the value is a sign alone.  `getEnv`
returns the default when the variable is unset or empty, and its value
otherwise. -/
theorem loadConfig_expire_hours (env : Environ) :
    (LoadConfig env).2 = none ∧
    (env "JWT_EXPIRE_HOURS" = none ∨ env "JWT_EXPIRE_HOURS" = some "" →
      (LoadConfig env).1.JWTExpireHours = 24) ∧
    (∀ (v : String) (sign ds : List Char), env "JWT_EXPIRE_HOURS" = some v →
      isSign sign → allDigits ds → v.data = sign ++ ds →
      (ds ≠ [] → inRange sign (decimalValue 0 ds) →
        (LoadConfig env).1.JWTExpireHours = signedValue sign (decimalValue 0 ds)) ∧
      (¬ inRange sign (decimalValue 0 ds) →
        (LoadConfig env).1.JWTExpireHours = signBound sign)) ∧
    (∀ (v : String) (sign pre rest : List Char), env "JWT_EXPIRE_HOURS" = some v →
      isSign sign → allDigits pre → v.data = sign ++ (pre ++ rest) →
      2 ^ 64 ≤ decimalValue 0 pre →
      (LoadConfig env).1.JWTExpireHours = signBound sign) ∧
    (∀ (v : String) (sign pre : List Char) (c : Char) (rest : List Char),
      env "JWT_EXPIRE_HOURS" = some v → isSign sign → allDigits pre →
      v.data = sign ++ (pre ++ c :: rest) → decimalValue 0 pre < 2 ^ 64 →
      ¬ ('0' ≤ c ∧ c ≤ '9') → (sign = [] → pre = [] → c ≠ '+' ∧ c ≠ '-') →
      (LoadConfig env).1.JWTExpireHours = 0) ∧
    (∀ v : String, env "JWT_EXPIRE_HOURS" = some v → v = "+" ∨ v = "-" →
      (LoadConfig env).1.JWTExpireHours = 0) ∧
    (∀ key d : String,
      (env key = none ∨ env key = some "" → getEnv env key d = d) ∧
      (∀ v : String, env key = some v → v ≠ "" → getEnv env key d = v)) := by
  have hset : ∀ (v : String) (l : List Char), env "JWT_EXPIRE_HOURS" = some v →
      v.data = l → l ≠ [] →
      (LoadConfig env).1.JWTExpireHours = (Atoi (String.mk l)).1 := by
    intro v l hv hl hne
    have hv2 : v ≠ "" := by
      intro h
      rw [h] at hl
      exact hne hl.symm
    have hv3 : v = String.mk l := by
      rw [← hl]
    show (Atoi (getEnv env "JWT_EXPIRE_HOURS" "24")).1 = _
    rw [(getEnv_cases env "JWT_EXPIRE_HOURS" "24").2 v hv hv2, hv3]
  refine ⟨rfl, ?_, ?_, ?_, ?_, ?_, getEnv_cases env⟩
  · intro h
    show (Atoi (getEnv env "JWT_EXPIRE_HOURS" "24")).1 = 24
    rw [(getEnv_cases env "JWT_EXPIRE_HOURS" "24").1 h]
    decide
  · intro v sign ds hv hs hd hl
    constructor
    · intro hne hr
      rw [hset v (sign ++ ds) hv hl (by simp [hne])]
      exact atoi_decimal sign ds hs hd hne hr
    · intro hr
      have hne : ds ≠ [] := by
        rintro rfl
        apply hr
        unfold inRange decimalValue
        split <;> simp
      rw [hset v (sign ++ ds) hv hl (by simp [hne])]
      exact atoi_out_of_range sign ds hs hd hr
  · intro v sign pre rest hv hs hd hl hov
    have hne : pre ≠ [] := by
      rintro rfl
      have : decimalValue 0 [] = 0 := rfl
      omega
    rw [hset v (sign ++ (pre ++ rest)) hv hl (by simp [hne])]
    exact atoi_overflow_prefix sign pre rest hs hd hov
  · intro v sign pre c rest hv hs hd hl hlt hc hfirst
    rw [hset v (sign ++ (pre ++ c :: rest)) hv hl (by simp)]
    exact atoi_syntax sign pre c rest hs hd hlt hc hfirst
  · intro v hv hsign
    rcases hsign with rfl | rfl
    · rw [hset "+" ['+'] hv rfl (by simp)]
      decide
    · rw [hset "-" ['-'] hv rfl (by simp)]
      decide

/-- Witness for C18 amended: `JWT_EXPIRE_HOURS=48` gives 48, `-3` gives -3,
`24h` gives 0, and the unset variable gives 24. -/
theorem loadConfig_expire_hours_witness :
    (LoadConfig (envWithHours "48")).1.JWTExpireHours = 48 ∧
    (LoadConfig (envWithHours "-3")).1.JWTExpireHours = -3 ∧
    (LoadConfig (envWithHours "24h")).1.JWTExpireHours = 0 ∧
    (LoadConfig (fun _ => none)).1.JWTExpireHours = 24 :=
  ⟨((loadConfig_expire_hours (envWithHours "48")).2.2.1 "48" [] "48".data rfl (Or.inl rfl)
      (by unfold allDigits; decide) rfl).1 (by decide) (by decide),
   ((loadConfig_expire_hours (envWithHours "-3")).2.2.1 "-3" ['-'] "3".data rfl
      (Or.inr (Or.inr rfl)) (by unfold allDigits; decide) rfl).1 (by decide) (by decide),
   (loadConfig_expire_hours (envWithHours "24h")).2.2.2.2.1 "24h" [] "24".data 'h' [] rfl
      (Or.inl rfl) (by unfold allDigits; decide) rfl (by decide) (by decide)
      (fun _ h => absurd h (by decide)),
   (loadConfig_expire_hours (fun _ => none)).2.1 (Or.inl rfl)⟩

end Config

/-! ## Theorems: the two role gates -/

section RoleGates

open middleware

/-- C19: on a request whose context has no key `role`, after `AuthMiddleware`
accepted the token the role gate of `common/middleware` finds no `role` and
aborts with 403 `Role not found`, the same for every list of allowed roles
(also one that contains the role of the principal) and every handler; the role
gate of `internal/middleware` in the same place runs the handler exactly when
the role of the principal is in the list, and answers 403 `Forbidden`
otherwise. -/
theorem role_gates_not_interchangeable (jwtService : auth.JWTService)
    (handler : gin.Context → Option gin.Context) (c : gin.Context) (token : String)
    (claims : auth.Claims) (allowedRoles : List String)
    (hrole : c.Get "role" = none) (hsp : ' ' ∉ token.data)
    (hh : c.GetHeader "Authorization" = bearerOf token)
    (hv : jwtService.ValidateToken token = .ok claims) :
    (∃ r : gin.Context,
      (∀ (roles : List String) (handler1 : gin.Context → Option gin.Context),
        AuthMiddleware jwtService (commonmiddleware.RoleMiddleware roles handler1) c
          = some r) ∧
      r.aborted = true ∧
      r.writtenH = c.writtenH ++ [(403, [("message", "Role not found")])] ∧
      r.written = c.written) ∧
    (∃ c1 : gin.Context,
      c1.Get "user_role" = some (.str claims.Role) ∧
      (claims.Role ∈ allowedRoles →
        AuthMiddleware jwtService (RoleMiddleware allowedRoles handler) c = handler c1) ∧
      (claims.Role ∉ allowedRoles →
        AuthMiddleware jwtService (RoleMiddleware allowedRoles handler) c
          = some (response.Error c1 403 "Forbidden"
              [apperror.NewError "permission"
                "You don\x27t have permission to access this resource"]).Abort)) := by
  have hk := principal_keys { c with validated := c.validated ++ [token] } claims
  constructor
  · refine ⟨(((({ c with validated := c.validated ++ [token] }.Set "user_id"
        (.uint claims.UserID)).Set "user_email" (.str claims.Email)).Set "user_role"
        (.str claims.Role)).JSONH 403 [("message", "Role not found")]).Abort,
      fun roles handler1 => ?_, ?_, ?_, ?_⟩
    · rw [authMiddleware_bearer jwtService _ c token hsp hh, hv]
      have hnone : ((({ c with validated := c.validated ++ [token] }.Set "user_id"
          (.uint claims.UserID)).Set "user_email" (.str claims.Email)).Set "user_role"
          (.str claims.Role)).Get "role" = none := by
        rw [hk.2.2.2.1 "role" (by decide) (by decide) (by decide)]
        exact hrole
      simp only [commonmiddleware.RoleMiddleware, hnone]
      rfl
    · rfl
    · rfl
    · rfl
  · refine ⟨_, hk.2.2.1, ?_, ?_⟩
    · intro hm
      rw [authMiddleware_bearer jwtService _ c token hsp hh, hv]
      exact roleMiddleware_allowed allowedRoles handler _ claims.Role hk.2.2.1 hm
    · intro hm
      rw [authMiddleware_bearer jwtService _ c token hsp hh, hv]
      exact roleMiddleware_denied allowedRoles handler _ claims.Role hk.2.2.1 hm

/-- Witness for C19: an admin token on a fresh request; the gate of
`common/middleware` with the list `["admin"]` answers 403 `Role not found`. -/
theorem role_gates_not_interchangeable_witness :
    ∃ r : gin.Context,
      AuthMiddleware user.toyJWT
        (commonmiddleware.RoleMiddleware ["admin"]
          (fun c => some (response.Success c 200 "ok" none)))
        (gin.newContext [("Authorization", "Bearer tok-admin")]) = some r ∧
      r.aborted = true ∧
      r.writtenH = [(403, [("message", "Role not found")])] := by
  obtain ⟨⟨r, h1, h2, h3, -⟩, -⟩ :=
    role_gates_not_interchangeable user.toyJWT
      (fun c => some (response.Success c 200 "ok" none))
      (gin.newContext [("Authorization", "Bearer tok-admin")]) "tok-admin"
      { UserID := 1, Email := "root@x.com", Role := "admin" } ["admin"]
      rfl (by decide) (by decide) rfl
  exact ⟨r, h1 _ _, h2, h3⟩

end RoleGates

/-! ## Theorems: what the handlers send for a failed service operation -/

section Handlers

/-- C11 at a failing store: when `repo.Update` (for `UpdatePost`) or
`repo.Create` (for `Register`) fails with the message `dial tcp
10.0.0.5:3306: connect: connection refused`, the handlers of `UpdatePost` and
`Register` send that message to the caller in the error list of the response,
with status 403 and 400.  The handler of `CreatePost`, on the same failure of
`repo.Create`, sends the fixed 500 response `Internal server error`, which is
the same for another message of the store. -/
theorem handlers_send_database_message :
    (post.Handler.UpdatePost id
        (post.failingRepository "dial tcp 10.0.0.5:3306: connect: connection refused")
        [post.samplePost] "1" (.ok ⟨"New", ""⟩)
        ((gin.newContext []).Set "user_id" (.uint 5))).result.written
      = [(403,
          { Success := false, Message := "Failed to update post", Data := none,
            Error := some [{ Field := "database",
                             Message := "A database error occurred: dial tcp 10.0.0.5:3306: connect: connection refused" }] })] ∧
    (user.Handler.Register id
        (user.failingRepository "dial tcp 10.0.0.5:3306: connect: connection refused")
        user.toyBcrypt 3 [] (.ok ⟨"John", "john@x.com", "secret1", "secret1"⟩)
        (gin.newContext [])).result.written
      = [(400,
          { Success := false, Message := "Failed to register user", Data := none,
            Error := some [{ Field := "database",
                             Message := "A database error occurred: dial tcp 10.0.0.5:3306: connect: connection refused" }] })] ∧
    "dial tcp 10.0.0.5:3306: connect: connection refused".data <:+
      "A database error occurred: dial tcp 10.0.0.5:3306: connect: connection refused".data ∧
    (post.Handler.CreatePost id
        (post.failingRepository "dial tcp 10.0.0.5:3306: connect: connection refused")
        [post.samplePost] (.ok ⟨"Title", "Content body"⟩)
        ((gin.newContext []).Set "user_id" (.uint 5))).result.written
      = [(500,
          { Success := false, Message := "Internal server error", Data := none,
            Error := some [{ Field := "database",
                             Message := "A database error occurred: <nil>" }] })] ∧
    (post.Handler.CreatePost id
        (post.failingRepository "dial tcp 10.0.0.5:3306: connect: connection refused")
        [post.samplePost] (.ok ⟨"Title", "Content body"⟩)
        ((gin.newContext []).Set "user_id" (.uint 5))).result
      = (post.Handler.CreatePost id (post.failingRepository "disk full")
        [post.samplePost] (.ok ⟨"Title", "Content body"⟩)
        ((gin.newContext []).Set "user_id" (.uint 5))).result ∧
    (post.Handler.UpdatePost id
        (post.failingRepository "dial tcp 10.0.0.5:3306: connect: connection refused")
        [post.samplePost] "1" (.ok ⟨"New", ""⟩)
        ((gin.newContext []).Set "user_id" (.uint 5))).result
      ≠ (post.Handler.UpdatePost id (post.failingRepository "disk full")
        [post.samplePost] "1" (.ok ⟨"New", ""⟩)
        ((gin.newContext []).Set "user_id" (.uint 5))).result := by
  refine ⟨by decide, by decide, ?_, by decide, by decide, by decide⟩
  exact ⟨"A database error occurred: ".data, rfl⟩

/-- What each handler sends when its service operation returns an error.  The
handlers `CreatePost`, `GetAllPosts`, `GetPostsByUserID`, `GetMyPosts` and
`GetAllUsers` answer every service error with the one response
`InternalError(c, nil)`: status 500, `Internal server error`, error list
`{database, "A database error occurred: <nil>"}`.  Every other handler sends
the error list of the service unchanged through `response.Error`.  A failure
of `repo.Update` in `UpdatePost` and of `repo.Create` in `Register` is returned
by the service as `{database, "A database error occurred: " + message}`. -/
theorem handlers_error_responses {σ τ : Type} (table : Char → Char)
    (prepo : post.Repository σ) (urepo : user.Repository τ) (ps : σ) (us : τ)
    (bc : user.Bcrypt) (jwtService : auth.JWTService) (salt : Nat) (c : gin.Context)
    (idParam : String) (id : Nat) (hid : strconv.ParseUint idParam.data 32 = (id, none)) :
    (response.InternalError c none
        = c.JSON 500 { Success := false, Message := "Internal server error", Data := none,
                       Error := some [{ Field := "database",
                                        Message := "A database error occurred: <nil>" }] } ∧
      ∀ err : GoError, apperror.DatabaseError (some err)
        = [{ Field := "database", Message := "A database error occurred: " ++ err.Error }]) ∧
    ((∀ (dto : post.UpdatePostDTO) (userID : Nat) (p : post.Post) (s1 : σ) (err : GoError),
        prepo.FindByID ps id = .ok p → p.UserID = userID →
        prepo.Update ps (post.applyUpdate p dto) = (s1, some err) →
        (post.UpdatePost prepo ps id userID dto).result
          = .error (apperror.DatabaseError (some err))) ∧
      (∀ (dto : user.RegisterDTO) (h : String) (s1 : τ) (u1 : user.User) (err : GoError),
        urepo.EmailExists us dto.Email = false →
        bc.GenerateFromPassword salt dto.Password bcrypt.DefaultCost = .ok h →
        urepo.Create us { ID := 0, Name := dto.Name, Email := dto.Email, Password := h,
                          Role := "user", CreatedAt := 0, UpdatedAt := 0 }
          = (s1, u1, some err) →
        (user.Register urepo bc salt us dto).result
          = .error (apperror.DatabaseError (some err)))) ∧
    ((∀ (dto : post.CreatePostDTO) (e : AppErrors),
        (post.CreatePost prepo ps (c.GetUint "user_id") dto).result = .error e →
        (post.Handler.CreatePost table prepo ps (.ok dto) c).result
          = response.InternalError c none) ∧
      (∀ e : AppErrors, (post.GetAllPosts prepo ps).result = .error e →
        (post.Handler.GetAllPosts prepo ps c).result = response.InternalError c none) ∧
      (∀ e : AppErrors, (post.GetPostsByUserID prepo ps id).result = .error e →
        (post.Handler.GetPostsByUserID prepo ps idParam c).result
          = response.InternalError c none) ∧
      (∀ e : AppErrors, (post.GetMyPosts prepo ps (c.GetUint "user_id")).result = .error e →
        (post.Handler.GetMyPosts prepo ps c).result = response.InternalError c none) ∧
      (∀ e : AppErrors, (user.GetAllUsers urepo us).result = .error e →
        (user.Handler.GetAllUsers urepo us c).result = response.InternalError c none)) ∧
    ((∀ e : AppErrors, (post.GetPostByID prepo ps id).result = .error e →
        (post.Handler.GetPostByID prepo ps idParam c).result
          = response.Error c 404 "Post not found" e) ∧
      (∀ (dto : post.UpdatePostDTO) (e : AppErrors),
        (post.UpdatePost prepo ps id (c.GetUint "user_id") dto).result = .error e →
        (post.Handler.UpdatePost table prepo ps idParam (.ok dto) c).result
          = response.Error c 403 "Failed to update post" e) ∧
      (∀ e : AppErrors, (post.DeletePost prepo ps id (c.GetUint "user_id")).result = some e →
        (post.Handler.DeletePost prepo ps idParam c).result
          = response.Error c 403 "Failed to delete post" e) ∧
      (∀ (dto : user.RegisterDTO) (e : AppErrors),
        (user.Register urepo bc salt us dto).result = .error e →
        (user.Handler.Register table urepo bc salt us (.ok dto) c).result
          = response.Error c 400 "Failed to register user" e) ∧
      (∀ (dto : user.LoginDTO) (e : AppErrors),
        (user.Login urepo jwtService bc us dto).result = .error e →
        (user.Handler.Login table urepo jwtService bc us (.ok dto) c).result
          = response.Error c 401 "Login failed" e) ∧
      (∀ e : AppErrors, (user.GetProfile urepo us (c.GetUint "user_id")).result = .error e →
        (user.Handler.GetProfile urepo us c).result
          = response.Error c 404 "User not found" e) ∧
      (∀ e : AppErrors, (user.GetUserByID urepo us id).result = .error e →
        (user.Handler.GetUserByID urepo us idParam c).result
          = response.Error c 404 "User not found" e) ∧
      (∀ (dto : user.UpdateUserDTO) (e : AppErrors),
        (user.UpdateUser urepo us (c.GetUint "user_id") dto).result = .error e →
        (user.Handler.UpdateProfile table urepo us (.ok dto) c).result
          = response.Error c 400 "Failed to update profile" e) ∧
      (∀ (dto : user.UpdateUserDTO) (e : AppErrors),
        (user.UpdateUser urepo us id dto).result = .error e →
        (user.Handler.UpdateUser table urepo us idParam (.ok dto) c).result
          = response.Error c 400 "Failed to update user" e) ∧
      (∀ (dto : user.ChangePasswordDTO) (e : AppErrors),
        (user.ChangePassword urepo bc salt us (c.GetUint "user_id") dto).result = some e →
        (user.Handler.ChangePassword table urepo bc salt us (.ok dto) c).result
          = response.Error c 400 "Failed to change password" e) ∧
      (∀ e : AppErrors, (user.DeleteUser urepo us id).result = some e →
        (user.Handler.DeleteUser urepo us idParam c).result
          = response.Error c 404 "Failed to delete user" e)) := by
  refine ⟨⟨rfl, fun err => rfl⟩, ⟨?_, ?_⟩, ⟨?_, ?_, ?_, ?_, ?_⟩,
    ⟨?_, ?_, ?_, ?_, ?_, ?_, ?_, ?_, ?_, ?_, ?_⟩⟩
  · intro dto userID p s1 err hf hown hup
    simp [post.UpdatePost, hf, hown, hup]
  · intro dto h s1 u1 err hfree hh hc
    simp [user.Register, hfree, user.User.HashPassword, hh, hc]
  · intro dto e he
    simp [post.Handler.CreatePost, he]
  · intro e he
    simp [post.Handler.GetAllPosts, he]
  · intro e he
    simp [post.Handler.GetPostsByUserID, hid, he]
  · intro e he
    simp [post.Handler.GetMyPosts, he]
  · intro e he
    simp [user.Handler.GetAllUsers, he]
  · intro e he
    simp [post.Handler.GetPostByID, hid, he]
    rfl
  · intro dto e he
    simp [post.Handler.UpdatePost, hid, he]
    rfl
  · intro e he
    simp [post.Handler.DeletePost, hid, he]
    rfl
  · intro dto e he
    simp [user.Handler.Register, he]
    rfl
  · intro dto e he
    simp [user.Handler.Login, he]
    rfl
  · intro e he
    simp [user.Handler.GetProfile, he]
    rfl
  · intro e he
    simp [user.Handler.GetUserByID, hid, he]
    rfl
  · intro dto e he
    simp [user.Handler.UpdateProfile, he]
    rfl
  · intro dto e he
    simp [user.Handler.UpdateUser, hid, he]
    rfl
  · intro dto e he
    simp [user.Handler.ChangePassword, he]
    rfl
  · intro e he
    simp [user.Handler.DeleteUser, hid, he]
    rfl

/-- An instance of `handlers_error_responses`: with a store that fails with the
message `disk full`, the handler of `CreatePost` answers with the fixed 500
response and the handler of `UpdatePost` with the error list of the service. -/
theorem handlers_error_responses_witness :
    (post.Handler.CreatePost id (post.failingRepository "disk full") [post.samplePost]
        (.ok ⟨"Title", "Content body"⟩)
        ((gin.newContext []).Set "user_id" (.uint 5))).result
      = ((gin.newContext []).Set "user_id" (.uint 5)).JSON 500
          { Success := false, Message := "Internal server error", Data := none,
            Error := some [{ Field := "database",
                             Message := "A database error occurred: <nil>" }] } ∧
    (post.Handler.UpdatePost id (post.failingRepository "disk full") [post.samplePost] "1"
        (.ok ⟨"New", ""⟩) ((gin.newContext []).Set "user_id" (.uint 5))).result
      = ((gin.newContext []).Set "user_id" (.uint 5)).JSON 403
          { Success := false, Message := "Failed to update post", Data := none,
            Error := some [{ Field := "database",
                             Message := "A database error occurred: disk full" }] } :=
  ⟨((handlers_error_responses id (post.failingRepository "disk full")
      (user.failingRepository "disk full") [post.samplePost] [] user.toyBcrypt user.toyJWT 3
      ((gin.newContext []).Set "user_id" (.uint 5)) "1" 1 (by decide)).2.2.1.1
      ⟨"Title", "Content body"⟩ _ rfl).trans rfl,
   ((handlers_error_responses id (post.failingRepository "disk full")
      (user.failingRepository "disk full") [post.samplePost] [] user.toyBcrypt user.toyJWT 3
      ((gin.newContext []).Set "user_id" (.uint 5)) "1" 1 (by decide)).2.2.2.2.1
      ⟨"New", ""⟩ _ rfl).trans rfl⟩

end Handlers
